import Mathlib

/-!
Verification development for the zksync operation codec
(src/core/lib/models/src/node/operations.rs) and the prover engine
(src/plasma/server/prover/prover.rs). Rust code is shallowly embedded:
machine integers become Nat (with explicit bounds where overflow matters),
byte vectors become List Nat, fallible code returns Except/Option, and
external collaborators (Pedersen tree hash, Groth16, SHA-256, the database)
become explicit function parameters collected in an environment record.
-/

namespace Zk

/-- Big-endian byte list of fixed width k holding the low 8k bits of x,
most significant byte first. Embeds the Rust to_be_bytes family used by the
codec (u32, u16, u128 are always below their bound, so nothing is cut). -/
def beBytes : Nat → Nat → List Nat
  | 0, _ => []
  | k+1, x => beBytes k (x / 256) ++ [x % 256]

/-- Big-endian interpretation of a byte list. -/
def beRead (l : List Nat) : Nat :=
  l.foldl (fun acc b => acc * 256 + b) 0

/-- Fixed-width slice of a byte list: len bytes starting at offset off.
Embeds the in-bounds Rust slice expression bytes[off..off+len]. -/
def sliceN (l : List Nat) (off len : Nat) : List Nat :=
  (l.drop off).take len

/-- Modelled from the spec: bytes_slice_to_uint32 from the primitives module
(src/core/lib/models/src/primitives.rs is not under src/) reads an exactly
4-byte slice as a big-endian unsigned integer. -/
def bytesSliceToUint32 (l : List Nat) : Option Nat :=
  if l.length = 4 then some (beRead l) else none

/-- Modelled from the spec: bytes_slice_to_uint16, big-endian over 2 bytes. -/
def bytesSliceToUint16 (l : List Nat) : Option Nat :=
  if l.length = 2 then some (beRead l) else none

/-- Modelled from the spec: bytes_slice_to_uint128, big-endian over 16 bytes. -/
def bytesSliceToUint128 (l : List Nat) : Option Nat :=
  if l.length = 16 then some (beRead l) else none

/-- Embeds Vec::resize(n, pad): truncate to n elements or right-pad with pad. -/
def resizeTo (n : Nat) (pad : Nat) (l : List Nat) : List Nat :=
  l.take n ++ List.replicate (n - l.length) pad

/-- Chunk size in bytes. Modelled from the spec (the params module is not
under src/): CHUNK_BYTES = 9. -/
def CHUNK_BYTES : Nat := 9

/-- Modelled from the spec: bit widths from the params module, which is not
under src/. AccountId is a 32-bit integer, tokens 16-bit, raw balances
128-bit, addresses and public key hashes 20 bytes, packed amounts use a
5-bit exponent with 19-bit mantissa, packed fees 5-bit exponent with
11-bit mantissa. -/
def ACCOUNT_ID_BIT_WIDTH : Nat := 32

def TOKEN_BIT_WIDTH : Nat := 16

def BALANCE_BIT_WIDTH : Nat := 128

def NONCE_BIT_WIDTH : Nat := 32

def ETH_ADDRESS_BIT_WIDTH : Nat := 160

def ADDRESS_WIDTH : Nat := 160

def NEW_PUBKEY_HASH_WIDTH : Nat := 160

def FR_ADDRESS_LEN : Nat := 20

def AMOUNT_EXPONENT_BIT_WIDTH : Nat := 5

def AMOUNT_MANTISSA_BIT_WIDTH : Nat := 19

def FEE_EXPONENT_BIT_WIDTH : Nat := 5

def FEE_MANTISSA_BIT_WIDTH : Nat := 11

/-- A 20-byte Ethereum-style address as a byte list. -/
abbrev Address := List Nat

/-- The all-zero address, Address::zero() and Address::default() in the source. -/
def zeroAddress : Address := List.replicate 20 0

/-- Modelled from the spec: the float packing helpers pack_token_amount and
pack_fee_amount live in the primitives module which is not under src/. The
packed form holds mantissa times 10 to the exponent across
exponent-width + mantissa-width bits; we place the exponent in the high bits.
The packer searches for an exponent below 32 that represents the value
exactly; values with no exact representation are outside the valid-operation
domain and are mapped to the zero encoding. -/
def findPackExponent (mantBound a : Nat) : Option Nat :=
  (List.range 32).find? (fun e => (a % 10 ^ e == 0) && decide (a / 10 ^ e < mantBound))

/-- Modelled from the spec: pack a token amount into 3 bytes (5-bit exponent,
19-bit mantissa). -/
def pack_token_amount (a : Nat) : List Nat :=
  match findPackExponent (2 ^ AMOUNT_MANTISSA_BIT_WIDTH) a with
  | some e => beBytes 3 (e * 2 ^ AMOUNT_MANTISSA_BIT_WIDTH + a / 10 ^ e)
  | none => beBytes 3 0

/-- Modelled from the spec: unpack a 3-byte packed token amount; rejects any
other length. -/
def unpack_token_amount (l : List Nat) : Option Nat :=
  if l.length = 3 then
    let v := beRead l
    some ((v % 2 ^ AMOUNT_MANTISSA_BIT_WIDTH) * 10 ^ (v / 2 ^ AMOUNT_MANTISSA_BIT_WIDTH))
  else none

/-- Modelled from the spec: pack a fee into 2 bytes (5-bit exponent, 11-bit
mantissa). -/
def pack_fee_amount (a : Nat) : List Nat :=
  match findPackExponent (2 ^ FEE_MANTISSA_BIT_WIDTH) a with
  | some e => beBytes 2 (e * 2 ^ FEE_MANTISSA_BIT_WIDTH + a / 10 ^ e)
  | none => beBytes 2 0

/-- Modelled from the spec: unpack a 2-byte packed fee; rejects any other
length. -/
def unpack_fee_amount (l : List Nat) : Option Nat :=
  if l.length = 2 then
    let v := beRead l
    some ((v % 2 ^ FEE_MANTISSA_BIT_WIDTH) * 10 ^ (v / 2 ^ FEE_MANTISSA_BIT_WIDTH))
  else none

/-- Modelled from the spec: PubKeyHash::from_bytes (the tx module is not under
src/) accepts exactly 20 bytes and stores them. -/
def pubKeyHashFromBytes (l : List Nat) : Except Unit (List Nat) :=
  if l.length = 20 then .ok l else .error ()

/-- Lift an Option into the Except Unit error monad used by the decoders. -/
def liftOpt : Option α → Except Unit α
  | some a => .ok a
  | none => .error ()

deriving instance DecidableEq for Except

/-- The Deposit priority operation payload (field `from` is written
fromAddress since from is a Lean keyword; likewise for the other ops). -/
structure DepositPr where
  fromAddress : Address
  token : Nat
  amount : Nat
  toAddress : Address
deriving DecidableEq, Repr

/-- DepositOp from operations.rs. -/
structure DepositOpData where
  priorityOp : DepositPr
  accountId : Nat
deriving DecidableEq, Repr

/-- The Transfer transaction (models::node::tx::Transfer). Constructor order
follows Transfer::new(account_id, from, to, token, amount, fee, nonce,
signature); the signature is opaque and modelled as Option Unit. -/
structure TransferTxData where
  accountId : Nat
  fromAddress : Address
  toAddress : Address
  token : Nat
  amount : Nat
  fee : Nat
  nonce : Nat
  signature : Option Unit
deriving DecidableEq, Repr

/-- TransferToNewOp from operations.rs. -/
structure TransferToNewOpData where
  tx : TransferTxData
  fromId : Nat
  toId : Nat
deriving DecidableEq, Repr

/-- TransferOp from operations.rs. -/
structure TransferOpData where
  tx : TransferTxData
  fromId : Nat
  toId : Nat
deriving DecidableEq, Repr

/-- The Withdraw transaction, Withdraw::new(account_id, from, to, token,
amount, fee, nonce, signature). -/
structure WithdrawTxData where
  accountId : Nat
  fromAddress : Address
  toAddress : Address
  token : Nat
  amount : Nat
  fee : Nat
  nonce : Nat
  signature : Option Unit
deriving DecidableEq, Repr

/-- WithdrawOp from operations.rs. -/
structure WithdrawOpData where
  tx : WithdrawTxData
  accountId : Nat
deriving DecidableEq, Repr

/-- The Close transaction. -/
structure CloseTxData where
  account : Address
  nonce : Nat
  signature : Option Unit
deriving DecidableEq, Repr

/-- CloseOp from operations.rs. -/
structure CloseOpData where
  tx : CloseTxData
  accountId : Nat
deriving DecidableEq, Repr

/-- The ChangePubKey transaction, ChangePubKey::new(account_id, account,
new_pk_hash, fee_token, fee, nonce, signature, eth_signature). -/
structure ChangePubKeyTxData where
  accountId : Nat
  account : Address
  newPkHash : List Nat
  feeToken : Nat
  fee : Nat
  nonce : Nat
  signature : Option Unit
  ethSignature : Option Unit
deriving DecidableEq, Repr

/-- ChangePubKeyOp from operations.rs. -/
structure ChangePubKeyOpData where
  tx : ChangePubKeyTxData
  accountId : Nat
deriving DecidableEq, Repr

/-- The ForcedExit transaction, ForcedExit::new(initiator_account_id, target,
token, fee, nonce, signature). -/
structure ForcedExitTxData where
  initiatorAccountId : Nat
  target : Address
  token : Nat
  fee : Nat
  nonce : Nat
  signature : Option Unit
deriving DecidableEq, Repr

/-- ForcedExitOp from operations.rs; withdrawAmount is None when the withdraw
was unsuccessful. -/
structure ForcedExitOpData where
  tx : ForcedExitTxData
  targetAccountId : Nat
  withdrawAmount : Option Nat
deriving DecidableEq, Repr

/-- The FullExit priority operation payload. -/
structure FullExitPr where
  accountId : Nat
  ethAddress : Address
  token : Nat
deriving DecidableEq, Repr

/-- FullExitOp from operations.rs; withdrawAmount is None when the withdraw
was unsuccessful. -/
structure FullExitOpData where
  priorityOp : FullExitPr
  withdrawAmount : Option Nat
deriving DecidableEq, Repr

/-- Per-kind chunk counts and opcodes from operations.rs. -/
def NoopOp.CHUNKS : Nat := 1

@[simp] def NoopOp.OP_CODE : Nat := 0x00

def DepositOp.CHUNKS : Nat := 6

@[simp] def DepositOp.OP_CODE : Nat := 0x01

def TransferToNewOp.CHUNKS : Nat := 6

@[simp] def TransferToNewOp.OP_CODE : Nat := 0x02

def WithdrawOp.CHUNKS : Nat := 6

@[simp] def WithdrawOp.OP_CODE : Nat := 0x03

def CloseOp.CHUNKS : Nat := 1

@[simp] def CloseOp.OP_CODE : Nat := 0x04

def TransferOp.CHUNKS : Nat := 2

@[simp] def TransferOp.OP_CODE : Nat := 0x05

def FullExitOp.CHUNKS : Nat := 6

@[simp] def FullExitOp.OP_CODE : Nat := 0x06

def ChangePubKeyOp.CHUNKS : Nat := 6

@[simp] def ChangePubKeyOp.OP_CODE : Nat := 0x07

def ForcedExitOp.CHUNKS : Nat := 6

@[simp] def ForcedExitOp.OP_CODE : Nat := 0x08

/-- DepositOp::get_public_data. -/
def DepositOp.get_public_data (op : DepositOpData) : List Nat :=
  resizeTo (DepositOp.CHUNKS * CHUNK_BYTES) 0
    ([DepositOp.OP_CODE] ++ beBytes 4 op.accountId ++ beBytes 2 op.priorityOp.token
      ++ beBytes 16 op.priorityOp.amount ++ op.priorityOp.toAddress)

/-- DepositOp::from_public_data. -/
def DepositOp.from_public_data (bytes : List Nat) : Except Unit DepositOpData :=
  if bytes.length = DepositOp.CHUNKS * CHUNK_BYTES then
    let accountIdOffset := 1
    let tokenIdOffset := accountIdOffset + ACCOUNT_ID_BIT_WIDTH / 8
    let amountOffset := tokenIdOffset + TOKEN_BIT_WIDTH / 8
    let accountAddressOffset := amountOffset + BALANCE_BIT_WIDTH / 8
    do
      let accountId ← liftOpt (bytesSliceToUint32 (sliceN bytes accountIdOffset (ACCOUNT_ID_BIT_WIDTH / 8)))
      let token ← liftOpt (bytesSliceToUint16 (sliceN bytes tokenIdOffset (TOKEN_BIT_WIDTH / 8)))
      let amount ← liftOpt (bytesSliceToUint128 (sliceN bytes amountOffset (BALANCE_BIT_WIDTH / 8)))
      let toAddr := sliceN bytes accountAddressOffset FR_ADDRESS_LEN
      pure { priorityOp := { fromAddress := zeroAddress, token := token, amount := amount, toAddress := toAddr }
             accountId := accountId }
  else .error ()

/-- NoopOp::from_public_data: accepts exactly one all-zero chunk. -/
def NoopOp.from_public_data (bytes : List Nat) : Except Unit Unit :=
  if bytes = List.replicate CHUNK_BYTES 0 then .ok () else .error ()

/-- NoopOp::get_public_data. -/
def NoopOp.get_public_data : List Nat :=
  resizeTo (NoopOp.CHUNKS * CHUNK_BYTES) 0 []

/-- TransferToNewOp::get_public_data. -/
def TransferToNewOp.get_public_data (op : TransferToNewOpData) : List Nat :=
  resizeTo (TransferToNewOp.CHUNKS * CHUNK_BYTES) 0
    ([TransferToNewOp.OP_CODE] ++ beBytes 4 op.fromId ++ beBytes 2 op.tx.token
      ++ pack_token_amount op.tx.amount ++ op.tx.toAddress ++ beBytes 4 op.toId
      ++ pack_fee_amount op.tx.fee)

/-- TransferToNewOp::from_public_data. -/
def TransferToNewOp.from_public_data (bytes : List Nat) : Except Unit TransferToNewOpData :=
  if bytes.length = TransferToNewOp.CHUNKS * CHUNK_BYTES then
    let fromOffset := 1
    let tokenIdOffset := fromOffset + ACCOUNT_ID_BIT_WIDTH / 8
    let amountOffset := tokenIdOffset + TOKEN_BIT_WIDTH / 8
    let toAddressOffset := amountOffset + (AMOUNT_EXPONENT_BIT_WIDTH + AMOUNT_MANTISSA_BIT_WIDTH) / 8
    let toIdOffset := toAddressOffset + FR_ADDRESS_LEN
    let feeOffset := toIdOffset + ACCOUNT_ID_BIT_WIDTH / 8
    do
      let fromId ← liftOpt (bytesSliceToUint32 (sliceN bytes fromOffset (ACCOUNT_ID_BIT_WIDTH / 8)))
      let toId ← liftOpt (bytesSliceToUint32 (sliceN bytes toIdOffset (ACCOUNT_ID_BIT_WIDTH / 8)))
      let toAddr := sliceN bytes toAddressOffset FR_ADDRESS_LEN
      let token ← liftOpt (bytesSliceToUint16 (sliceN bytes tokenIdOffset (TOKEN_BIT_WIDTH / 8)))
      let amount ← liftOpt (unpack_token_amount (sliceN bytes amountOffset ((AMOUNT_EXPONENT_BIT_WIDTH + AMOUNT_MANTISSA_BIT_WIDTH) / 8)))
      let fee ← liftOpt (unpack_fee_amount (sliceN bytes feeOffset ((FEE_EXPONENT_BIT_WIDTH + FEE_MANTISSA_BIT_WIDTH) / 8)))
      pure { tx := { accountId := fromId, fromAddress := zeroAddress, toAddress := toAddr,
                     token := token, amount := amount, fee := fee, nonce := 0, signature := none }
             fromId := fromId, toId := toId }
  else .error ()

/-- TransferOp::get_public_data. -/
def TransferOp.get_public_data (op : TransferOpData) : List Nat :=
  resizeTo (TransferOp.CHUNKS * CHUNK_BYTES) 0
    ([TransferOp.OP_CODE] ++ beBytes 4 op.fromId ++ beBytes 2 op.tx.token
      ++ beBytes 4 op.toId ++ pack_token_amount op.tx.amount ++ pack_fee_amount op.tx.fee)

/-- TransferOp::from_public_data. -/
def TransferOp.from_public_data (bytes : List Nat) : Except Unit TransferOpData :=
  if bytes.length = TransferOp.CHUNKS * CHUNK_BYTES then
    let fromOffset := 1
    let tokenIdOffset := fromOffset + ACCOUNT_ID_BIT_WIDTH / 8
    let toOffset := tokenIdOffset + TOKEN_BIT_WIDTH / 8
    let amountOffset := toOffset + ACCOUNT_ID_BIT_WIDTH / 8
    let feeOffset := amountOffset + (AMOUNT_EXPONENT_BIT_WIDTH + AMOUNT_MANTISSA_BIT_WIDTH) / 8
    do
      let token ← liftOpt (bytesSliceToUint16 (sliceN bytes tokenIdOffset (TOKEN_BIT_WIDTH / 8)))
      let amount ← liftOpt (unpack_token_amount (sliceN bytes amountOffset ((AMOUNT_EXPONENT_BIT_WIDTH + AMOUNT_MANTISSA_BIT_WIDTH) / 8)))
      let fee ← liftOpt (unpack_fee_amount (sliceN bytes feeOffset ((FEE_EXPONENT_BIT_WIDTH + FEE_MANTISSA_BIT_WIDTH) / 8)))
      let fromId ← liftOpt (bytesSliceToUint32 (sliceN bytes fromOffset (ACCOUNT_ID_BIT_WIDTH / 8)))
      let toId ← liftOpt (bytesSliceToUint32 (sliceN bytes toOffset (ACCOUNT_ID_BIT_WIDTH / 8)))
      pure { tx := { accountId := fromId, fromAddress := zeroAddress, toAddress := zeroAddress,
                     token := token, amount := amount, fee := fee, nonce := 0, signature := none }
             fromId := fromId, toId := toId }
  else .error ()

/-- WithdrawOp::get_public_data. -/
def WithdrawOp.get_public_data (op : WithdrawOpData) : List Nat :=
  resizeTo (WithdrawOp.CHUNKS * CHUNK_BYTES) 0
    ([WithdrawOp.OP_CODE] ++ beBytes 4 op.accountId ++ beBytes 2 op.tx.token
      ++ beBytes 16 op.tx.amount ++ pack_fee_amount op.tx.fee ++ op.tx.toAddress)

/-- WithdrawOp::from_public_data. -/
def WithdrawOp.from_public_data (bytes : List Nat) : Except Unit WithdrawOpData :=
  if bytes.length = WithdrawOp.CHUNKS * CHUNK_BYTES then
    let accountOffset := 1
    let tokenIdOffset := accountOffset + ACCOUNT_ID_BIT_WIDTH / 8
    let amountOffset := tokenIdOffset + TOKEN_BIT_WIDTH / 8
    let feeOffset := amountOffset + BALANCE_BIT_WIDTH / 8
    let ethAddressOffset := feeOffset + (FEE_EXPONENT_BIT_WIDTH + FEE_MANTISSA_BIT_WIDTH) / 8
    do
      let accountId ← liftOpt (bytesSliceToUint32 (sliceN bytes accountOffset (ACCOUNT_ID_BIT_WIDTH / 8)))
      let token ← liftOpt (bytesSliceToUint16 (sliceN bytes tokenIdOffset (TOKEN_BIT_WIDTH / 8)))
      let toAddr := sliceN bytes ethAddressOffset (ETH_ADDRESS_BIT_WIDTH / 8)
      let amount ← liftOpt (bytesSliceToUint128 (sliceN bytes amountOffset (BALANCE_BIT_WIDTH / 8)))
      let fee ← liftOpt (unpack_fee_amount (sliceN bytes feeOffset ((FEE_EXPONENT_BIT_WIDTH + FEE_MANTISSA_BIT_WIDTH) / 8)))
      pure { tx := { accountId := accountId, fromAddress := zeroAddress, toAddress := toAddr,
                     token := token, amount := amount, fee := fee, nonce := 0, signature := none }
             accountId := accountId }
  else .error ()

/-- ForcedExitOp amount(): the withdraw amount or 0 when None. -/
def ForcedExitOp.amount (op : ForcedExitOpData) : Nat :=
  op.withdrawAmount.getD 0

/-- ForcedExitOp::get_public_data. -/
def ForcedExitOp.get_public_data (op : ForcedExitOpData) : List Nat :=
  resizeTo (ForcedExitOp.CHUNKS * CHUNK_BYTES) 0
    ([ForcedExitOp.OP_CODE] ++ beBytes 4 op.tx.initiatorAccountId ++ beBytes 4 op.targetAccountId
      ++ beBytes 2 op.tx.token ++ beBytes 16 (ForcedExitOp.amount op)
      ++ pack_fee_amount op.tx.fee ++ op.tx.target)

/-- ForcedExitOp::from_public_data. -/
def ForcedExitOp.from_public_data (bytes : List Nat) : Except Unit ForcedExitOpData :=
  if bytes.length = ForcedExitOp.CHUNKS * CHUNK_BYTES then
    let initiatorAccountIdOffset := 1
    let targetAccountIdOffset := initiatorAccountIdOffset + ACCOUNT_ID_BIT_WIDTH / 8
    let tokenIdOffset := targetAccountIdOffset + ACCOUNT_ID_BIT_WIDTH / 8
    let amountOffset := tokenIdOffset + TOKEN_BIT_WIDTH / 8
    let feeOffset := amountOffset + BALANCE_BIT_WIDTH / 8
    let ethAddressOffset := feeOffset + (FEE_EXPONENT_BIT_WIDTH + FEE_MANTISSA_BIT_WIDTH) / 8
    let ethAddressEnd := ethAddressOffset + ETH_ADDRESS_BIT_WIDTH / 8
    do
      let initiatorAccountId ← liftOpt (bytesSliceToUint32 (sliceN bytes initiatorAccountIdOffset (targetAccountIdOffset - initiatorAccountIdOffset)))
      let targetAccountId ← liftOpt (bytesSliceToUint32 (sliceN bytes targetAccountIdOffset (tokenIdOffset - targetAccountIdOffset)))
      let token ← liftOpt (bytesSliceToUint16 (sliceN bytes tokenIdOffset (amountOffset - tokenIdOffset)))
      let amount ← liftOpt (bytesSliceToUint128 (sliceN bytes amountOffset (BALANCE_BIT_WIDTH / 8)))
      let fee ← liftOpt (unpack_fee_amount (sliceN bytes feeOffset (ethAddressOffset - feeOffset)))
      let target := sliceN bytes ethAddressOffset (ethAddressEnd - ethAddressOffset)
      pure { tx := { initiatorAccountId := initiatorAccountId, target := target, token := token,
                     fee := fee, nonce := 0, signature := none }
             targetAccountId := targetAccountId
             withdrawAmount := some amount }
  else .error ()

/-- CloseOp::get_public_data. -/
def CloseOp.get_public_data (op : CloseOpData) : List Nat :=
  resizeTo (CloseOp.CHUNKS * CHUNK_BYTES) 0
    ([CloseOp.OP_CODE] ++ beBytes 4 op.accountId)

/-- CloseOp::from_public_data. -/
def CloseOp.from_public_data (bytes : List Nat) : Except Unit CloseOpData :=
  if bytes.length = CloseOp.CHUNKS * CHUNK_BYTES then
    let accountIdOffset := 1
    do
      let accountId ← liftOpt (bytesSliceToUint32 (sliceN bytes accountIdOffset (ACCOUNT_ID_BIT_WIDTH / 8)))
      pure { tx := { account := zeroAddress, nonce := 0, signature := none }, accountId := accountId }
  else .error ()

/-- ChangePubKeyOp::get_public_data. -/
def ChangePubKeyOp.get_public_data (op : ChangePubKeyOpData) : List Nat :=
  resizeTo (ChangePubKeyOp.CHUNKS * CHUNK_BYTES) 0
    ([ChangePubKeyOp.OP_CODE] ++ beBytes 4 op.accountId ++ op.tx.newPkHash
      ++ op.tx.account ++ beBytes 4 op.tx.nonce ++ beBytes 2 op.tx.feeToken
      ++ pack_fee_amount op.tx.fee)

/-- ChangePubKeyOp::from_public_data. Note that, unlike every other kind, the
source only requires bytes.len() to be at least the end of the fee field. -/
def ChangePubKeyOp.from_public_data (bytes : List Nat) : Except Unit ChangePubKeyOpData :=
  let accountIdOffset := 1
  let pkHashOffset := accountIdOffset + ACCOUNT_ID_BIT_WIDTH / 8
  let accountOffset := pkHashOffset + NEW_PUBKEY_HASH_WIDTH / 8
  let nonceOffset := accountOffset + ADDRESS_WIDTH / 8
  let feeTokenOffset := nonceOffset + NONCE_BIT_WIDTH / 8
  let feeOffset := feeTokenOffset + TOKEN_BIT_WIDTH / 8
  let endOffset := feeOffset + (FEE_EXPONENT_BIT_WIDTH + FEE_MANTISSA_BIT_WIDTH) / 8
  if endOffset ≤ bytes.length then
    do
      let accountId ← liftOpt (bytesSliceToUint32 (sliceN bytes accountIdOffset (pkHashOffset - accountIdOffset)))
      let newPkHash ← pubKeyHashFromBytes (sliceN bytes pkHashOffset (accountOffset - pkHashOffset))
      let account := sliceN bytes accountOffset (nonceOffset - accountOffset)
      let nonce ← liftOpt (bytesSliceToUint32 (sliceN bytes nonceOffset (feeTokenOffset - nonceOffset)))
      let feeToken ← liftOpt (bytesSliceToUint16 (sliceN bytes feeTokenOffset (feeOffset - feeTokenOffset)))
      let fee ← liftOpt (unpack_fee_amount (sliceN bytes feeOffset (endOffset - feeOffset)))
      pure { tx := { accountId := accountId, account := account, newPkHash := newPkHash,
                     feeToken := feeToken, fee := fee, nonce := nonce,
                     signature := none, ethSignature := none }
             accountId := accountId }
  else .error ()

/-- FullExitOp::get_public_data. -/
def FullExitOp.get_public_data (op : FullExitOpData) : List Nat :=
  resizeTo (FullExitOp.CHUNKS * CHUNK_BYTES) 0
    ([FullExitOp.OP_CODE] ++ beBytes 4 op.priorityOp.accountId ++ op.priorityOp.ethAddress
      ++ beBytes 2 op.priorityOp.token ++ beBytes 16 (op.withdrawAmount.getD 0))

/-- FullExitOp::from_public_data. -/
def FullExitOp.from_public_data (bytes : List Nat) : Except Unit FullExitOpData :=
  if bytes.length = FullExitOp.CHUNKS * CHUNK_BYTES then
    let accountIdOffset := 1
    let ethAddressOffset := accountIdOffset + ACCOUNT_ID_BIT_WIDTH / 8
    let tokenOffset := ethAddressOffset + ETH_ADDRESS_BIT_WIDTH / 8
    let amountOffset := tokenOffset + TOKEN_BIT_WIDTH / 8
    do
      let accountId ← liftOpt (bytesSliceToUint32 (sliceN bytes accountIdOffset (ethAddressOffset - accountIdOffset)))
      let ethAddress := sliceN bytes ethAddressOffset (tokenOffset - ethAddressOffset)
      let token ← liftOpt (bytesSliceToUint16 (sliceN bytes tokenOffset (amountOffset - tokenOffset)))
      let amount ← liftOpt (bytesSliceToUint128 (sliceN bytes amountOffset (BALANCE_BIT_WIDTH / 8)))
      pure { priorityOp := { accountId := accountId, ethAddress := ethAddress, token := token }
             withdrawAmount := some amount }
  else .error ()

/-- The FranklinOp tagged union from operations.rs (boxing elided). -/
inductive FranklinOp where
  | noop : FranklinOp
  | deposit : DepositOpData → FranklinOp
  | transferToNew : TransferToNewOpData → FranklinOp
  | withdraw : WithdrawOpData → FranklinOp
  | close : CloseOpData → FranklinOp
  | transfer : TransferOpData → FranklinOp
  | fullExit : FullExitOpData → FranklinOp
  | changePubKeyOffchain : ChangePubKeyOpData → FranklinOp
  | forcedExit : ForcedExitOpData → FranklinOp
deriving DecidableEq, Repr

/-- FranklinOp::chunks. -/
def FranklinOp.chunks : FranklinOp → Nat
  | .noop => NoopOp.CHUNKS
  | .deposit _ => DepositOp.CHUNKS
  | .transferToNew _ => TransferToNewOp.CHUNKS
  | .withdraw _ => WithdrawOp.CHUNKS
  | .close _ => CloseOp.CHUNKS
  | .transfer _ => TransferOp.CHUNKS
  | .fullExit _ => FullExitOp.CHUNKS
  | .changePubKeyOffchain _ => ChangePubKeyOp.CHUNKS
  | .forcedExit _ => ForcedExitOp.CHUNKS

/-- FranklinOp::public_data. -/
def FranklinOp.public_data : FranklinOp → List Nat
  | .noop => NoopOp.get_public_data
  | .deposit op => DepositOp.get_public_data op
  | .transferToNew op => TransferToNewOp.get_public_data op
  | .withdraw op => WithdrawOp.get_public_data op
  | .close op => CloseOp.get_public_data op
  | .transfer op => TransferOp.get_public_data op
  | .fullExit op => FullExitOp.get_public_data op
  | .changePubKeyOffchain op => ChangePubKeyOp.get_public_data op
  | .forcedExit op => ForcedExitOp.get_public_data op

/-- FranklinOp::from_public_data: dispatch on the first byte, then delegate;
an empty input or an unknown opcode is an error. -/
def FranklinOp.from_public_data (bytes : List Nat) : Except Unit FranklinOp :=
  match bytes.head? with
  | none => .error ()
  | some opType =>
    if opType = NoopOp.OP_CODE then
      (NoopOp.from_public_data bytes).map (fun _ => .noop)
    else if opType = DepositOp.OP_CODE then
      (DepositOp.from_public_data bytes).map .deposit
    else if opType = TransferToNewOp.OP_CODE then
      (TransferToNewOp.from_public_data bytes).map .transferToNew
    else if opType = WithdrawOp.OP_CODE then
      (WithdrawOp.from_public_data bytes).map .withdraw
    else if opType = CloseOp.OP_CODE then
      (CloseOp.from_public_data bytes).map .close
    else if opType = TransferOp.OP_CODE then
      (TransferOp.from_public_data bytes).map .transfer
    else if opType = FullExitOp.OP_CODE then
      (FullExitOp.from_public_data bytes).map .fullExit
    else if opType = ChangePubKeyOp.OP_CODE then
      (ChangePubKeyOp.from_public_data bytes).map .changePubKeyOffchain
    else if opType = ForcedExitOp.OP_CODE then
      (ForcedExitOp.from_public_data bytes).map .forcedExit
    else .error ()

/-! Prover engine embedding (src/plasma/server/prover/prover.rs). Field
elements of Fr (the BN-254 scalar field underlying alt-BabyJubJub) are
modelled as Nat with arithmetic taken explicitly modulo rBN. -/

/-- The order of the BN-254 scalar field Fr. -/
def rBN : Nat :=
  21888242871839275222246405745257275088548364400416034343698204186575808495617

/-- Fr addition (add_assign). -/
def frAdd (a b : Nat) : Nat := (a + b) % rBN

/-- Fr subtraction (sub_assign). -/
def frSub (a b : Nat) : Nat := (a + (rBN - b % rBN)) % rBN

/-- A circuit account leaf: four Fr scalars. Account::default() is the
all-zero leaf. -/
structure CAccount where
  balance : Nat
  nonce : Nat
  pubX : Nat
  pubY : Nat
deriving DecidableEq, Repr

instance : Inhabited CAccount := ⟨⟨0, 0, 0, 0⟩⟩

/-- Account::default(): the empty leaf. -/
def CAccount.empty : CAccount := ⟨0, 0, 0, 0⟩

/-- The account tree contents (tree.items): an association list from leaf
number to account. The Merkle structure itself lives behind the external
Pedersen hash and enters the embedding only through Env.rootHash. -/
def Tree := List (Nat × CAccount)

deriving instance DecidableEq, Repr for Tree

/-- items.get(&k). -/
def treeGet : Tree → Nat → Option CAccount
  | [], _ => none
  | (k, a) :: rest, key => if k = key then some a else treeGet rest key

/-- tree.insert(k, v): replace the leaf at k, or append it. -/
def treeInsert : Tree → Nat → CAccount → Tree
  | [], key, v => [(key, v)]
  | (k, a) :: rest, key, v =>
    if k = key then (k, v) :: rest else (k, a) :: treeInsert rest key v

/-- Modelled from the spec: field_element_to_u32 (plasma primitives, not
under src/) casts an Fr element holding a 32-bit account index to u32 by
keeping the low 32 bits. -/
def fieldElementToU32 (x : Nat) : Nat := x % 2 ^ 32

/-- Modelled from the spec: parse_float_to_u128 (sapling-crypto, external)
recovers mantissa times 10 to the exponent from the low
exponent-width + mantissa-width bits of a packed field element. At these
widths the result always fits u128, so the parse never fails. -/
def parseFloat (expWidth mantWidth x : Nat) : Nat :=
  let v := x % 2 ^ (expWidth + mantWidth)
  (v % 2 ^ mantWidth) * 10 ^ (v / 2 ^ mantWidth)

/-- The amount carried by a transfer, recovered from the packed Fr element:
the source truncates the LE bit expansion to 24 bits and parses the float. -/
def parsedTransferAmount (amount : Nat) : Nat :=
  parseFloat AMOUNT_EXPONENT_BIT_WIDTH AMOUNT_MANTISSA_BIT_WIDTH amount

/-- The fee of a transfer, recovered from the packed Fr element. -/
def parsedTransferFee (fee : Nat) : Nat :=
  parseFloat FEE_EXPONENT_BIT_WIDTH FEE_MANTISSA_BIT_WIDTH fee

/-- A circuit-level transfer transaction: the fields of
models::circuit::TransferTx that the prover loop reads (signature and
good_until_block enter only the witness and are elided). Amount and fee are
packed Fr elements. -/
structure CTransferTx where
  fromId : Nat
  toId : Nat
  amount : Nat
  fee : Nat
  nonce : Nat
deriving DecidableEq, Repr

/-- A circuit-level deposit request: models::circuit::DepositRequest fields
read by the prover loop. -/
structure CDepositTx where
  intoId : Nat
  amount : Nat
  pubX : Nat
  pubY : Nat
deriving DecidableEq, Repr

/-- A circuit-level exit request: models::circuit::ExitRequest fields read by
the prover loop. -/
structure CExitTx where
  fromId : Nat
deriving DecidableEq, Repr

/-- The outcome of the external Groth16 create_random_proof plus local
verify_proof sequence, which the prover cannot influence: proof creation can
error, verification can error, verification can return false, or everything
succeeds. -/
inductive ProofOutcome where
  | createErr : ProofOutcome
  | verifyErr : ProofOutcome
  | verifyFalse : ProofOutcome
  | ok : ProofOutcome
deriving DecidableEq, Repr

/-- The prover error type (BabyProverErr). Other(msg) variants are split into
one constructor per distinct message string in the source. -/
inductive PErr where
  /-- Other: incorrect block (transfer sequence guard). -/
  | otherIncorrectBlock : PErr
  /-- Other: block_number != self.block_number (deposit and exit guards). -/
  | otherBlockNumberMismatch : PErr
  /-- Other: num_txes != self.transfer_batch_size. -/
  | otherWrongTransferBatchSize : PErr
  /-- Other: num_txes != self.deposit_batch_size (used by both the deposit
  and the exit path in the source). -/
  | otherWrongDepositBatchSize : PErr
  /-- InvalidTransaction: circuit-model conversion failed. -/
  | invalidTransaction : PErr
  /-- InvalidSender: sender account is unknown. -/
  | invalidSender : PErr
  /-- Other: public_key.is_none(). -/
  | otherPublicKeyNone : PErr
  /-- Other: existing_leaf.is_none(). -/
  | otherExistingLeafNone : PErr
  /-- Other: initial_root == final_root. -/
  | otherRootUnchanged : PErr
  /-- Other: block_final_root != final_root. -/
  | otherRootMismatch : PErr
  /-- Panic while packing the hash as a field element (read_be expect); never
  reachable because the masked hash is below rBN. -/
  | commitmentPanic : PErr
  /-- Other: proof.is_err(). -/
  | otherProofErr : PErr
  /-- Other: proof verification failed. -/
  | otherProofVerifyErr : PErr
  /-- Other: proof is invalid. -/
  | otherProofInvalid : PErr
deriving DecidableEq, Repr

/-- Classifies each prover error by the stage of the source functions that
raises it: true for the failures arising after the two post-state root
checks (the read_be field packing of the commitment, Groth16 proof
creation, and local verification), which in the source run after the
self.block_number += 1 statement; false for every failure at or before the
root checks (sequence guard, batch size, transaction loop, the two root
comparisons). -/
def PErr.afterRootChecks : PErr → Bool
  | .commitmentPanic => true
  | .otherProofErr => true
  | .otherProofVerifyErr => true
  | .otherProofInvalid => true
  | _ => false

/-- The external collaborators of the prover, passed explicitly: the Pedersen
root hash of the account tree, the server_models encoder, the circuit-model
conversions (which validate and can fail), membership of a public key on the
Jubjub curve, the per-exit public data serializer, SHA-256, and the Groth16
outcomes for the three circuits. -/
structure Env where
  rootHash : Tree → Nat
  encodeTransferTxs : Nat → List CTransferTx → List Nat
  encodeDepositTxs : Nat → List CDepositTx → List Nat
  tryFromTransfer : CTransferTx → Except Unit CTransferTx
  tryFromDeposit : CDepositTx → Except Unit CDepositTx
  tryFromExit : CExitTx → Except Unit CExitTx
  onCurve : Nat → Nat → Bool
  exitRequestBytes : Nat → Nat → List Nat
  sha256 : List Nat → List Nat
  grothTransfer : ProofOutcome
  grothDeposit : ProofOutcome
  grothExit : ProofOutcome

/-- The prover state: batch sizes, block cursor and account tree
(proving-key parameters, jubjub params and the db pool live in Env or are
irrelevant to state evolution). -/
structure ProverState where
  transferBatchSize : Nat
  depositBatchSize : Nat
  exitBatchSize : Nat
  blockNumber : Nat
  accountsTree : Tree
deriving DecidableEq, Repr

/-- A block as the prover sees it: number, declared post-root, and the
transactions of its single kind (held separately, as in the source
signatures). -/
structure Block where
  blockNumber : Nat
  newRootHash : Nat
deriving DecidableEq, Repr

/-- The FullBabyProof record minus the opaque Groth16 points: public inputs
(old root, new root, commitment), block number, total fees and public data. -/
structure FullProof where
  oldRoot : Nat
  newRoot : Nat
  commitment : Nat
  blockNumber : Nat
  totalFees : Nat
  publicData : List Nat
deriving DecidableEq, Repr

/-- Big-endian bit expansion of the low n bits of x, most significant first.
BitIterator over a 256-bit Fr repr is toBits 256. -/
def toBits : Nat → Nat → List Bool
  | 0, _ => []
  | n+1, x => toBits n (x / 2) ++ [x % 2 == 1]

/-- Modelled from the spec: be_bit_vector_into_bytes (plasma circuit utils,
not under src/) packs each group of 8 bits into one byte, most significant
bit first. -/
def bitsToBytes : List Bool → List Nat
  | b0 :: b1 :: b2 :: b3 :: b4 :: b5 :: b6 :: b7 :: rest =>
    (128 * cond b0 1 0 + 64 * cond b1 1 0 + 32 * cond b2 1 0 + 16 * cond b3 1 0
      + 8 * cond b4 1 0 + 4 * cond b5 1 0 + 2 * cond b6 1 0 + cond b7 1 0)
      :: bitsToBytes rest
  | _ => []

/-- hash_result[0] &= 0x1f, applied to the first byte of the digest. -/
def maskTop3 : List Nat → List Nat
  | [] => []
  | b :: rest => (b &&& 0x1f) :: rest

/-- Fr::from_repr on a 32-byte big-endian value: succeeds exactly below the
field order. -/
def frFromRepr (v : Nat) : Option Nat :=
  if v < rBN then some v else none

/-- The commitment computation of apply_and_prove_transfer, embedded at the
bit level: 256-bit BE bit expansions of the block number and total fees are
packed into bytes and hashed, the digest is chained with the public data,
and the first byte of the final digest is masked with 0x1f before being read
big-endian as a field element (None models the unreachable read_be panic). -/
def commitTransferCode (sha : List Nat → List Nat) (blockNumber totalFees : Nat)
    (publicData : List Nat) : Option Nat :=
  let initialBits := toBits 256 blockNumber ++ toBits 256 totalFees
  let h1 := sha (bitsToBytes initialBits)
  let h2 := sha (h1 ++ publicData)
  frFromRepr (beRead (maskTop3 h2))

/-- The commitment computation shared by apply_and_prove_deposit and
apply_and_prove_exit: as for transfers but the first hash input is only the
256-bit block number. -/
def commitDepositExitCode (sha : List Nat → List Nat) (blockNumber : Nat)
    (publicData : List Nat) : Option Nat :=
  let initialBits := toBits 256 blockNumber
  let h1 := sha (bitsToBytes initialBits)
  let h2 := sha (h1 ++ publicData)
  frFromRepr (beRead (maskTop3 h2))

/-- The chained hash exactly as the spec words it: H1 over the byte-level
first input, H2 = sha(H1 concatenated with the public data), top 3 bits of
the first byte cleared, big-endian read as a field element. -/
def commitChainedSpec (sha : List Nat → List Nat) (firstInput publicData : List Nat) : Nat :=
  let h2 := sha (sha firstInput ++ publicData)
  beRead (match h2 with
           | [] => []
           | b :: rest => (b % 32) :: rest)

/-- The per-transaction body of the transfer loop: convert to the circuit
model, require the sender leaf, default the recipient leaf, parse amount and
fee, debit the sender (amount plus fee) and bump its nonce, credit the
recipient unless its leaf number is 0, accumulate the fee, and write sender
then recipient back into the tree. -/
def applyTransferTx (env : Env) (tree : Tree) (fees : Nat) (tx : CTransferTx) :
    Except PErr (Tree × Nat) :=
  match env.tryFromTransfer tx with
  | .error _ => .error .invalidTransaction
  | .ok ctx =>
    let senderLeafNumber := fieldElementToU32 ctx.fromId
    let recipientLeafNumber := fieldElementToU32 ctx.toId
    match treeGet tree senderLeafNumber with
    | none => .error .invalidSender
    | some senderLeaf =>
      let recipientLeaf := (treeGet tree recipientLeafNumber).getD CAccount.empty
      let transferAmount := parsedTransferAmount ctx.amount
      let fee := parsedTransferFee ctx.fee
      let updatedSender :=
        { senderLeaf with
            balance := frSub (frSub senderLeaf.balance transferAmount) fee
            nonce := frAdd senderLeaf.nonce 1 }
      let updatedRecipient :=
        if recipientLeafNumber ≠ 0 then
          { recipientLeaf with balance := frAdd recipientLeaf.balance transferAmount }
        else recipientLeaf
      let fees1 := frAdd fees fee
      let tree1 := treeInsert tree senderLeafNumber updatedSender
      let tree2 := treeInsert tree1 recipientLeafNumber updatedRecipient
      .ok (tree2, fees1)

/-- Run the transfer loop; on the first error the partially mutated tree and
fee accumulator are kept (the source mutates self.accounts_tree in place). -/
def runTransferTxs (env : Env) : Tree → Nat → List CTransferTx →
    Except PErr Unit × Tree × Nat
  | tree, fees, [] => (.ok (), tree, fees)
  | tree, fees, tx :: rest =>
    match applyTransferTx env tree fees tx with
    | .error e => (.error e, tree, fees)
    | .ok (tree1, fees1) => runTransferTxs env tree1 fees1 rest

/-- The per-transaction body of the deposit loop: convert, build the new leaf
(fresh leaf with deposited balance and the deposited pubkey when empty,
otherwise add to the balance), require the new pubkey on the curve, insert. -/
def applyDepositTx (env : Env) (tree : Tree) (tx : CDepositTx) : Except PErr Tree :=
  match env.tryFromDeposit tx with
  | .error _ => .error .invalidTransaction
  | .ok ctx =>
    let intoLeafNumber := fieldElementToU32 ctx.intoId
    let newLeaf :=
      match treeGet tree intoLeafNumber with
      | none => { CAccount.empty with balance := ctx.amount, pubX := ctx.pubX, pubY := ctx.pubY }
      | some oldLeaf => { oldLeaf with balance := frAdd oldLeaf.balance ctx.amount }
    if env.onCurve newLeaf.pubX newLeaf.pubY then
      .ok (treeInsert tree intoLeafNumber newLeaf)
    else .error .otherPublicKeyNone

/-- Run the deposit loop, keeping partial mutation on error. -/
def runDepositTxs (env : Env) : Tree → List CDepositTx → Except PErr Unit × Tree
  | tree, [] => (.ok (), tree)
  | tree, tx :: rest =>
    match applyDepositTx env tree tx with
    | .error e => (.error e, tree)
    | .ok tree1 => runDepositTxs env tree1 rest

/-- The per-transaction body of the exit loop: convert, require the leaf,
serialize the exit request (leaf number and looked-up balance) onto the
public data, and replace the leaf with the default account. -/
def applyExitTx (env : Env) (tree : Tree) (publicData : List Nat) (tx : CExitTx) :
    Except PErr (Tree × List Nat) :=
  match env.tryFromExit tx with
  | .error _ => .error .invalidTransaction
  | .ok ctx =>
    let fromLeafNumber := fieldElementToU32 ctx.fromId
    match treeGet tree fromLeafNumber with
    | none => .error .otherExistingLeafNone
    | some oldLeaf =>
      let publicData1 := publicData ++ env.exitRequestBytes fromLeafNumber oldLeaf.balance
      .ok (treeInsert tree fromLeafNumber CAccount.empty, publicData1)

/-- Run the exit loop, keeping partial mutation on error. -/
def runExitTxs (env : Env) : Tree → List Nat → List CExitTx →
    Except PErr Unit × Tree × List Nat
  | tree, publicData, [] => (.ok (), tree, publicData)
  | tree, publicData, tx :: rest =>
    match applyExitTx env tree publicData tx with
    | .error e => (.error e, tree, publicData)
    | .ok (tree1, publicData1) => runExitTxs env tree1 publicData1 rest

/-- apply_and_prove_transfer: sequence guard, encode public data, batch-size
check, transaction loop, the two root checks, block-number bump, commitment,
Groth16 proof and local verification. The bump precedes proving, exactly as
in the source. -/
def applyAndProveTransfer (env : Env) (st : ProverState) (block : Block)
    (transactions : List CTransferTx) : Except PErr FullProof × ProverState :=
  if block.blockNumber ≠ st.blockNumber then (.error .otherIncorrectBlock, st) else
  let publicData := env.encodeTransferTxs block.blockNumber transactions
  if transactions.length ≠ st.transferBatchSize then (.error .otherWrongTransferBatchSize, st) else
  let initialRoot := env.rootHash st.accountsTree
  match runTransferTxs env st.accountsTree 0 transactions with
  | (.error e, tree1, _) => (.error e, { st with accountsTree := tree1 })
  | (.ok _, tree1, totalFees) =>
    let st1 := { st with accountsTree := tree1 }
    let finalRoot := env.rootHash tree1
    if initialRoot = finalRoot then (.error .otherRootUnchanged, st1) else
    if block.newRootHash ≠ finalRoot then (.error .otherRootMismatch, st1) else
    let st2 := { st1 with blockNumber := st1.blockNumber + 1 }
    match commitTransferCode env.sha256 block.blockNumber totalFees publicData with
    | none => (.error .commitmentPanic, st2)
    | some commitment =>
      match env.grothTransfer with
      | .createErr => (.error .otherProofErr, st2)
      | .verifyErr => (.error .otherProofVerifyErr, st2)
      | .verifyFalse => (.error .otherProofInvalid, st2)
      | .ok =>
        (.ok { oldRoot := initialRoot, newRoot := finalRoot, commitment := commitment,
               blockNumber := block.blockNumber, totalFees := totalFees,
               publicData := publicData }, st2)

/-- apply_and_prove_deposit: as for transfers but with the deposit batch
size, no fee accumulation, and the single-word commitment input; the
recorded total fee is zero. -/
def applyAndProveDeposit (env : Env) (st : ProverState) (block : Block)
    (transactions : List CDepositTx) : Except PErr FullProof × ProverState :=
  if block.blockNumber ≠ st.blockNumber then (.error .otherBlockNumberMismatch, st) else
  let publicData := env.encodeDepositTxs block.blockNumber transactions
  if transactions.length ≠ st.depositBatchSize then (.error .otherWrongDepositBatchSize, st) else
  let initialRoot := env.rootHash st.accountsTree
  match runDepositTxs env st.accountsTree transactions with
  | (.error e, tree1) => (.error e, { st with accountsTree := tree1 })
  | (.ok _, tree1) =>
    let st1 := { st with accountsTree := tree1 }
    let finalRoot := env.rootHash tree1
    if initialRoot = finalRoot then (.error .otherRootUnchanged, st1) else
    if block.newRootHash ≠ finalRoot then (.error .otherRootMismatch, st1) else
    let st2 := { st1 with blockNumber := st1.blockNumber + 1 }
    match commitDepositExitCode env.sha256 block.blockNumber publicData with
    | none => (.error .commitmentPanic, st2)
    | some commitment =>
      match env.grothDeposit with
      | .createErr => (.error .otherProofErr, st2)
      | .verifyErr => (.error .otherProofVerifyErr, st2)
      | .verifyFalse => (.error .otherProofInvalid, st2)
      | .ok =>
        (.ok { oldRoot := initialRoot, newRoot := finalRoot, commitment := commitment,
               blockNumber := block.blockNumber, totalFees := 0,
               publicData := publicData }, st2)

/-- apply_and_prove_exit: the batch-size check compares against
self.deposit_batch_size (the field exit_batch_size is never consulted), the
public data is built inside the loop from the looked-up balances, and the
recorded total fee is zero. -/
def applyAndProveExit (env : Env) (st : ProverState) (block : Block)
    (transactions : List CExitTx) : Except PErr FullProof × ProverState :=
  if block.blockNumber ≠ st.blockNumber then (.error .otherBlockNumberMismatch, st) else
  if transactions.length ≠ st.depositBatchSize then (.error .otherWrongDepositBatchSize, st) else
  let initialRoot := env.rootHash st.accountsTree
  match runExitTxs env st.accountsTree [] transactions with
  | (.error e, tree1, _) => (.error e, { st with accountsTree := tree1 })
  | (.ok _, tree1, publicData) =>
    let st1 := { st with accountsTree := tree1 }
    let finalRoot := env.rootHash tree1
    if initialRoot = finalRoot then (.error .otherRootUnchanged, st1) else
    if block.newRootHash ≠ finalRoot then (.error .otherRootMismatch, st1) else
    let st2 := { st1 with blockNumber := st1.blockNumber + 1 }
    match commitDepositExitCode env.sha256 block.blockNumber publicData with
    | none => (.error .commitmentPanic, st2)
    | some commitment =>
      match env.grothExit with
      | .createErr => (.error .otherProofErr, st2)
      | .verifyErr => (.error .otherProofVerifyErr, st2)
      | .verifyFalse => (.error .otherProofInvalid, st2)
      | .ok =>
        (.ok { oldRoot := initialRoot, newRoot := finalRoot, commitment := commitment,
               blockNumber := block.blockNumber, totalFees := 0,
               publicData := publicData }, st2)

/-! Spec-side definitions: validity of an operation, the projection the
decoder is expected to return, and the byte layouts as the spec states
them. -/

/-- A valid operation: machine-integer fields are within their Rust types
(bounds written in the base-256 form used by the byte lemmas), addresses and
pubkey hashes hold 20 bytes, packed amounts and fees survive the
pack/unpack round-trip (the spec makes this the definition of a canonical
amount), and the transaction mirrors of op-level account ids agree with
them. -/
def wfOp : FranklinOp → Prop
  | .noop => True
  | .deposit o =>
    o.accountId < 256 ^ 4 ∧ o.priorityOp.token < 256 ^ 2 ∧
    o.priorityOp.amount < 256 ^ 16 ∧ o.priorityOp.toAddress.length = 20
  | .transferToNew o =>
    o.fromId < 256 ^ 4 ∧ o.toId < 256 ^ 4 ∧ o.tx.token < 256 ^ 2 ∧
    o.tx.toAddress.length = 20 ∧
    unpack_token_amount (pack_token_amount o.tx.amount) = some o.tx.amount ∧
    unpack_fee_amount (pack_fee_amount o.tx.fee) = some o.tx.fee ∧
    o.tx.accountId = o.fromId
  | .withdraw o =>
    o.accountId < 256 ^ 4 ∧ o.tx.token < 256 ^ 2 ∧ o.tx.amount < 256 ^ 16 ∧
    o.tx.toAddress.length = 20 ∧
    unpack_fee_amount (pack_fee_amount o.tx.fee) = some o.tx.fee ∧
    o.tx.accountId = o.accountId
  | .close o => o.accountId < 256 ^ 4
  | .transfer o =>
    o.fromId < 256 ^ 4 ∧ o.toId < 256 ^ 4 ∧ o.tx.token < 256 ^ 2 ∧
    unpack_token_amount (pack_token_amount o.tx.amount) = some o.tx.amount ∧
    unpack_fee_amount (pack_fee_amount o.tx.fee) = some o.tx.fee ∧
    o.tx.accountId = o.fromId
  | .fullExit o =>
    o.priorityOp.accountId < 256 ^ 4 ∧ o.priorityOp.ethAddress.length = 20 ∧
    o.priorityOp.token < 256 ^ 2 ∧ o.withdrawAmount.getD 0 < 256 ^ 16
  | .changePubKeyOffchain o =>
    o.accountId < 256 ^ 4 ∧ o.tx.newPkHash.length = 20 ∧ o.tx.account.length = 20 ∧
    o.tx.nonce < 256 ^ 4 ∧ o.tx.feeToken < 256 ^ 2 ∧
    unpack_fee_amount (pack_fee_amount o.tx.fee) = some o.tx.fee ∧
    o.tx.accountId = o.accountId
  | .forcedExit o =>
    o.tx.initiatorAccountId < 256 ^ 4 ∧ o.targetAccountId < 256 ^ 4 ∧
    o.tx.token < 256 ^ 2 ∧ o.withdrawAmount.getD 0 < 256 ^ 16 ∧
    o.tx.target.length = 20 ∧
    unpack_fee_amount (pack_fee_amount o.tx.fee) = some o.tx.fee

instance (op : FranklinOp) : Decidable (wfOp op) := by
  cases op <;> simp only [wfOp] <;> infer_instance

/-- The projection the decoder returns for a valid operation: the operation
itself, with the fields the public data does not carry replaced by their
defaults (zero addresses, zero nonces where the op does not carry one,
absent signatures), and with the withdraw amount of FullExit and ForcedExit
replaced by Some of the encoded amount (the original amount, or Some 0 when
the withdraw was unsuccessful). -/
def decodedProjection : FranklinOp → FranklinOp
  | .noop => .noop
  | .deposit o => .deposit { o with priorityOp := { o.priorityOp with fromAddress := zeroAddress } }
  | .transferToNew o =>
    .transferToNew { o with tx := { o.tx with accountId := o.fromId, fromAddress := zeroAddress, nonce := 0, signature := none } }
  | .withdraw o =>
    .withdraw { o with tx := { o.tx with accountId := o.accountId, fromAddress := zeroAddress, nonce := 0, signature := none } }
  | .close o => .close { o with tx := { account := zeroAddress, nonce := 0, signature := none } }
  | .transfer o =>
    .transfer { o with tx := { o.tx with accountId := o.fromId, fromAddress := zeroAddress, toAddress := zeroAddress, nonce := 0, signature := none } }
  | .fullExit o => .fullExit { o with withdrawAmount := some (o.withdrawAmount.getD 0) }
  | .changePubKeyOffchain o =>
    .changePubKeyOffchain { o with tx := { o.tx with accountId := o.accountId, signature := none, ethSignature := none } }
  | .forcedExit o =>
    .forcedExit { o with tx := { o.tx with nonce := 0, signature := none }
                         withdrawAmount := some (o.withdrawAmount.getD 0) }

/-- The per-op byte layout exactly as the spec section 4.1 states it: opcode
first, each field big-endian at its offset, zero padding on the right up to
CHUNKS times CHUNK_BYTES bytes. -/
def claimLayout : FranklinOp → List Nat
  | .noop => List.replicate 9 0
  | .deposit o =>
    [0x01] ++ beBytes 4 o.accountId ++ beBytes 2 o.priorityOp.token
      ++ beBytes 16 o.priorityOp.amount ++ o.priorityOp.toAddress ++ List.replicate 11 0
  | .transferToNew o =>
    [0x02] ++ beBytes 4 o.fromId ++ beBytes 2 o.tx.token ++ pack_token_amount o.tx.amount
      ++ o.tx.toAddress ++ beBytes 4 o.toId ++ pack_fee_amount o.tx.fee ++ List.replicate 18 0
  | .withdraw o =>
    [0x03] ++ beBytes 4 o.accountId ++ beBytes 2 o.tx.token ++ beBytes 16 o.tx.amount
      ++ pack_fee_amount o.tx.fee ++ o.tx.toAddress ++ List.replicate 9 0
  | .close o => [0x04] ++ beBytes 4 o.accountId ++ List.replicate 4 0
  | .transfer o =>
    [0x05] ++ beBytes 4 o.fromId ++ beBytes 2 o.tx.token ++ beBytes 4 o.toId
      ++ pack_token_amount o.tx.amount ++ pack_fee_amount o.tx.fee ++ List.replicate 2 0
  | .fullExit o =>
    [0x06] ++ beBytes 4 o.priorityOp.accountId ++ o.priorityOp.ethAddress
      ++ beBytes 2 o.priorityOp.token ++ beBytes 16 (o.withdrawAmount.getD 0)
      ++ List.replicate 11 0
  | .changePubKeyOffchain o =>
    [0x07] ++ beBytes 4 o.accountId ++ o.tx.newPkHash ++ o.tx.account
      ++ beBytes 4 o.tx.nonce ++ beBytes 2 o.tx.feeToken ++ pack_fee_amount o.tx.fee
      ++ List.replicate 1 0
  | .forcedExit o =>
    [0x08] ++ beBytes 4 o.tx.initiatorAccountId ++ beBytes 4 o.targetAccountId
      ++ beBytes 2 o.tx.token ++ beBytes 16 (o.withdrawAmount.getD 0)
      ++ pack_fee_amount o.tx.fee ++ o.tx.target ++ List.replicate 5 0

/-! Concrete instances used by the witnesses. -/

/-- A concrete SHA-256 stand-in for witnesses: a constant 32-byte digest. -/
def shaW : List Nat → List Nat := fun _ => List.replicate 32 0

/-- A concrete environment for witnesses: the tree root is the number of
leaves, the encoders and exit serializer return nothing, conversions and the
curve check always succeed, SHA-256 is shaW and all Groth16 runs succeed. -/
def envBase : Env where
  rootHash := fun t => t.length
  encodeTransferTxs := fun _ _ => []
  encodeDepositTxs := fun _ _ => []
  tryFromTransfer := .ok
  tryFromDeposit := .ok
  tryFromExit := .ok
  onCurve := fun _ _ => true
  exitRequestBytes := fun _ _ => []
  sha256 := shaW
  grothTransfer := .ok
  grothDeposit := .ok
  grothExit := .ok

/-- envBase with a failing Groth16 transfer proof. -/
def envGrothFail : Env := { envBase with grothTransfer := .createErr }

/-- envBase with a constant root hash, making every block state-preserving
from the viewpoint of the root comparison. -/
def envConstRoot : Env := { envBase with rootHash := fun _ => 0 }

/-- A concrete account with balance 100. -/
def accW : CAccount := { balance := 100, nonce := 0, pubX := 0, pubY := 0 }

/-- A concrete prover state: batch sizes 1/3/2, cursor at block 0, one
account with leaf number 1. -/
def stW : ProverState where
  transferBatchSize := 1
  depositBatchSize := 3
  exitBatchSize := 2
  blockNumber := 0
  accountsTree := [(1, accW)]

/-- A transfer of packed amount 7 (decoding to 7) with zero fee from leaf 1
to leaf 2. -/
def txW : CTransferTx := { fromId := 1, toId := 2, amount := 7, fee := 0, nonce := 0 }

/-- A self-transfer: leaf 1 pays leaf 1. -/
def txSelfW : CTransferTx := { fromId := 1, toId := 1, amount := 7, fee := 0, nonce := 0 }

/-- A deposit of 5 into leaf 1. -/
def depW : CDepositTx := { intoId := 1, amount := 5, pubX := 0, pubY := 0 }

/-- An exit of leaf 1. -/
def exitW : CExitTx := { fromId := 1 }

/-- The block the scenario proves: number 0, declared post-root 2 (under
envBase the root is the leaf count, and the transfer txW creates leaf 2). -/
def blockW : Block := { blockNumber := 0, newRootHash := 2 }

/-- A block whose number disagrees with the prover cursor of stW. -/
def blockBad : Block := { blockNumber := 5, newRootHash := 2 }

/-- A concrete valid deposit operation (spec scenario S1). -/
def sampleDepositOp : DepositOpData where
  priorityOp := { fromAddress := zeroAddress, token := 1, amount := 100,
                  toAddress := List.replicate 20 17 }
  accountId := 5

/-- A concrete valid transfer operation (spec scenario S2). -/
def sampleTransferOp : TransferOpData where
  tx := { accountId := 7, fromAddress := zeroAddress, toAddress := zeroAddress,
          token := 2, amount := 1000, fee := 1, nonce := 0, signature := none }
  fromId := 7
  toId := 9

/-- A concrete FullExit with a successful withdraw of 5. -/
def sampleFullExitOp : FullExitOpData where
  priorityOp := { accountId := 3, ethAddress := List.replicate 20 170, token := 1 }
  withdrawAmount := some 5

/-! Helper lemmas about the byte-level primitives. -/

theorem length_beBytes (k x : Nat) : (beBytes k x).length = k := by
  induction k generalizing x with
  | zero => rfl
  | succ k ih => simp [beBytes, ih]

theorem beRead_append_singleton (l : List Nat) (b : Nat) :
    beRead (l ++ [b]) = beRead l * 256 + b := by
  simp [beRead, List.foldl_append]

theorem beRead_beBytes {k x : Nat} (h : x < 256 ^ k) : beRead (beBytes k x) = x := by
  induction k generalizing x with
  | zero =>
    interval_cases x
    rfl
  | succ k ih =>
    have hd : x / 256 < 256 ^ k := by
      apply Nat.div_lt_of_lt_mul
      calc x < 256 ^ (k + 1) := h
        _ = 256 * 256 ^ k := by ring
    rw [beBytes, beRead_append_singleton, ih hd]
    omega

theorem beRead_foldl (l : List Nat) (a : Nat) :
    l.foldl (fun acc b => acc * 256 + b) a = a * 256 ^ l.length + beRead l := by
  induction l generalizing a with
  | nil => simp [beRead]
  | cons c t ih =>
    show t.foldl _ (a * 256 + c) = _
    rw [ih]
    have hr : beRead (c :: t) = c * 256 ^ t.length + beRead t := by
      show t.foldl _ (0 * 256 + c) = _
      rw [ih]
      simp
    rw [hr, List.length_cons]
    ring

theorem beRead_cons (c : Nat) (t : List Nat) :
    beRead (c :: t) = c * 256 ^ t.length + beRead t := by
  show t.foldl _ (0 * 256 + c) = _
  rw [beRead_foldl]
  simp

theorem beRead_lt (l : List Nat) (h : ∀ b ∈ l, b < 256) :
    beRead l < 256 ^ l.length := by
  induction l with
  | nil => simp [beRead]
  | cons c t ih =>
    rw [beRead_cons]
    have hc : c < 256 := h c (by simp)
    have ht : beRead t < 256 ^ t.length := ih (fun b hb => h b (by simp [hb]))
    calc c * 256 ^ t.length + beRead t
        < c * 256 ^ t.length + 256 ^ t.length := by omega
      _ = (c + 1) * 256 ^ t.length := by ring
      _ ≤ 256 * 256 ^ t.length := by
          exact Nat.mul_le_mul_right _ (by omega)
      _ = 256 ^ (c :: t).length := by
          simp [List.length_cons]
          ring

theorem sliceN_append_of_le (a b : List Nat) (off len : Nat) (h : a.length ≤ off) :
    sliceN (a ++ b) off len = sliceN b (off - a.length) len := by
  unfold sliceN
  rw [List.drop_append_eq_append_drop, List.drop_eq_nil_of_le h, List.nil_append]

theorem sliceN_prefix (a b : List Nat) (len : Nat) (h : a.length = len) :
    sliceN (a ++ b) 0 len = a := by
  unfold sliceN
  rw [List.drop_zero, List.take_append_eq_append_take, List.take_of_length_le (by omega)]
  simp [h]

theorem resizeTo_of_le (n pad : Nat) (l : List Nat) (h : l.length ≤ n) :
    resizeTo n pad l = l ++ List.replicate (n - l.length) pad := by
  unfold resizeTo
  rw [List.take_of_length_le h]

theorem length_pack_token_amount (a : Nat) : (pack_token_amount a).length = 3 := by
  unfold pack_token_amount
  cases findPackExponent (2 ^ AMOUNT_MANTISSA_BIT_WIDTH) a <;> simp [length_beBytes]

theorem length_pack_fee_amount (a : Nat) : (pack_fee_amount a).length = 2 := by
  unfold pack_fee_amount
  cases findPackExponent (2 ^ FEE_MANTISSA_BIT_WIDTH) a <;> simp [length_beBytes]

/-- The simp set that evaluates the width constants and list lengths of the
codec. -/
theorem length_zeroAddress : zeroAddress.length = 20 := by
  simp [zeroAddress]

/-- Claim C6: for every valid operation, public_data() returns the byte
layout stated by the spec: exactly chunks() times CHUNK_BYTES bytes, the
opcode as the first byte (0x00 for Noop), every multi-byte numeric field
big-endian at its specified offset, and zero padding after the last field.
The layout is captured by the spec-side definition claimLayout, and the
length equation is stated separately. -/
theorem public_data_matches_spec_layout (op : FranklinOp) (h : wfOp op) :
    FranklinOp.public_data op = claimLayout op ∧
    (FranklinOp.public_data op).length = FranklinOp.chunks op * CHUNK_BYTES := by
  have hmain : FranklinOp.public_data op = claimLayout op := by
    cases op with
    | noop =>
      simp [FranklinOp.public_data, NoopOp.get_public_data, claimLayout, resizeTo,
        NoopOp.CHUNKS, CHUNK_BYTES]
    | deposit o =>
      obtain ⟨h1, h2, h3, h4⟩ := h
      simp only [FranklinOp.public_data, DepositOp.get_public_data, claimLayout]
      rw [resizeTo_of_le _ _ _ (by
        simp [length_beBytes, h4, DepositOp.CHUNKS, CHUNK_BYTES])]
      simp [length_beBytes, h4, DepositOp.CHUNKS, CHUNK_BYTES]
    | transferToNew o =>
      obtain ⟨h1, h2, h3, h4, h5, h6, h7⟩ := h
      simp only [FranklinOp.public_data, TransferToNewOp.get_public_data, claimLayout]
      rw [resizeTo_of_le _ _ _ (by
        simp [length_beBytes, h4, length_pack_token_amount, length_pack_fee_amount,
          TransferToNewOp.CHUNKS, CHUNK_BYTES])]
      simp [length_beBytes, h4, length_pack_token_amount, length_pack_fee_amount,
        TransferToNewOp.CHUNKS, CHUNK_BYTES]
    | withdraw o =>
      obtain ⟨h1, h2, h3, h4, h5, h6⟩ := h
      simp only [FranklinOp.public_data, WithdrawOp.get_public_data, claimLayout]
      rw [resizeTo_of_le _ _ _ (by
        simp [length_beBytes, h4, length_pack_fee_amount, WithdrawOp.CHUNKS, CHUNK_BYTES])]
      simp [length_beBytes, h4, length_pack_fee_amount, WithdrawOp.CHUNKS, CHUNK_BYTES]
    | close o =>
      simp only [FranklinOp.public_data, CloseOp.get_public_data, claimLayout]
      rw [resizeTo_of_le _ _ _ (by simp [length_beBytes, CloseOp.CHUNKS, CHUNK_BYTES])]
      simp [length_beBytes, CloseOp.CHUNKS, CHUNK_BYTES]
    | transfer o =>
      obtain ⟨h1, h2, h3, h4, h5, h6⟩ := h
      simp only [FranklinOp.public_data, TransferOp.get_public_data, claimLayout]
      rw [resizeTo_of_le _ _ _ (by
        simp [length_beBytes, length_pack_token_amount, length_pack_fee_amount,
          TransferOp.CHUNKS, CHUNK_BYTES])]
      simp [length_beBytes, length_pack_token_amount, length_pack_fee_amount,
        TransferOp.CHUNKS, CHUNK_BYTES]
    | fullExit o =>
      obtain ⟨h1, h2, h3, h4⟩ := h
      simp only [FranklinOp.public_data, FullExitOp.get_public_data, claimLayout]
      rw [resizeTo_of_le _ _ _ (by
        simp [length_beBytes, h2, FullExitOp.CHUNKS, CHUNK_BYTES])]
      simp [length_beBytes, h2, FullExitOp.CHUNKS, CHUNK_BYTES]
    | changePubKeyOffchain o =>
      obtain ⟨h1, h2, h3, h4, h5, h6, h7⟩ := h
      simp only [FranklinOp.public_data, ChangePubKeyOp.get_public_data, claimLayout]
      rw [resizeTo_of_le _ _ _ (by
        simp [length_beBytes, h2, h3, length_pack_fee_amount,
          ChangePubKeyOp.CHUNKS, CHUNK_BYTES])]
      simp [length_beBytes, h2, h3, length_pack_fee_amount, ChangePubKeyOp.CHUNKS, CHUNK_BYTES]
    | forcedExit o =>
      obtain ⟨h1, h2, h3, h4, h5, h6⟩ := h
      simp only [FranklinOp.public_data, ForcedExitOp.get_public_data, claimLayout]
      rw [resizeTo_of_le _ _ _ (by
        simp [length_beBytes, h5, length_pack_fee_amount, ForcedExitOp.CHUNKS, CHUNK_BYTES])]
      simp [length_beBytes, h5, length_pack_fee_amount, ForcedExitOp.CHUNKS, CHUNK_BYTES,
        ForcedExitOp.amount]
  refine ⟨hmain, ?_⟩
  rw [hmain]
  cases op with
  | noop => simp [claimLayout, FranklinOp.chunks, NoopOp.CHUNKS, CHUNK_BYTES]
  | deposit o =>
    obtain ⟨h1, h2, h3, h4⟩ := h
    simp [claimLayout, FranklinOp.chunks, DepositOp.CHUNKS, CHUNK_BYTES, length_beBytes, h4]
  | transferToNew o =>
    obtain ⟨h1, h2, h3, h4, h5, h6, h7⟩ := h
    simp [claimLayout, FranklinOp.chunks, TransferToNewOp.CHUNKS, CHUNK_BYTES, length_beBytes,
      h4, length_pack_token_amount, length_pack_fee_amount]
  | withdraw o =>
    obtain ⟨h1, h2, h3, h4, h5, h6⟩ := h
    simp [claimLayout, FranklinOp.chunks, WithdrawOp.CHUNKS, CHUNK_BYTES, length_beBytes,
      h4, length_pack_fee_amount]
  | close o =>
    simp [claimLayout, FranklinOp.chunks, CloseOp.CHUNKS, CHUNK_BYTES, length_beBytes]
  | transfer o =>
    obtain ⟨h1, h2, h3, h4, h5, h6⟩ := h
    simp [claimLayout, FranklinOp.chunks, TransferOp.CHUNKS, CHUNK_BYTES, length_beBytes,
      length_pack_token_amount, length_pack_fee_amount]
  | fullExit o =>
    obtain ⟨h1, h2, h3, h4⟩ := h
    simp [claimLayout, FranklinOp.chunks, FullExitOp.CHUNKS, CHUNK_BYTES, length_beBytes, h2]
  | changePubKeyOffchain o =>
    obtain ⟨h1, h2, h3, h4, h5, h6, h7⟩ := h
    simp [claimLayout, FranklinOp.chunks, ChangePubKeyOp.CHUNKS, CHUNK_BYTES, length_beBytes,
      h2, h3, length_pack_fee_amount]
  | forcedExit o =>
    obtain ⟨h1, h2, h3, h4, h5, h6⟩ := h
    simp [claimLayout, FranklinOp.chunks, ForcedExitOp.CHUNKS, CHUNK_BYTES, length_beBytes,
      h5, length_pack_fee_amount]

/-! Support lemmas for evaluating the decoders symbolically. -/

theorem liftOpt_some (a : α) : liftOpt (some a) = .ok a := rfl

theorem except_bind_ok (a : α) (f : α → Except Unit β) :
    ((Except.ok a : Except Unit α) >>= f) = f a := rfl

theorem except_map_ok (a : α) (f : α → β) :
    ((Except.ok a : Except Unit α).map f) = .ok (f a) := rfl

theorem uint32_beBytes {x : Nat} (h : x < 256 ^ 4) :
    bytesSliceToUint32 (beBytes 4 x) = some x := by
  simp [bytesSliceToUint32, length_beBytes, beRead_beBytes h]

theorem uint16_beBytes {x : Nat} (h : x < 256 ^ 2) :
    bytesSliceToUint16 (beBytes 2 x) = some x := by
  simp [bytesSliceToUint16, length_beBytes, beRead_beBytes h]

theorem uint128_beBytes {x : Nat} (h : x < 256 ^ 16) :
    bytesSliceToUint128 (beBytes 16 x) = some x := by
  simp [bytesSliceToUint128, length_beBytes, beRead_beBytes h]

theorem pubKeyHashFromBytes_of_length {l : List Nat} (h : l.length = 20) :
    pubKeyHashFromBytes l = .ok l := by
  simp [pubKeyHashFromBytes, h]

theorem except_functor_ok (a : α) (f : α → β) :
    (f <$> (Except.ok a : Except Unit α)) = .ok (f a) := rfl

theorem except_isOk_ok {ε : Type} (a : α) : (Except.ok a : Except ε α).isOk = true := rfl

theorem except_isOk_error {ε : Type} (e : ε) : (Except.error e : Except ε α).isOk = false := rfl

theorem sliceN_cons_of_pos (x : Nat) (l : List Nat) (off len : Nat) (h : 1 ≤ off) :
    sliceN (x :: l) off len = sliceN l (off - 1) len := by
  obtain ⟨k, rfl⟩ : ∃ k, off = k + 1 := ⟨off - 1, by omega⟩
  rfl

/-- Claim C4 (amended): for every valid operation, decoding its public data
succeeds and returns the projection decodedProjection: the operation with
unknown-from-pubdata fields defaulted, and with the FullExit and ForcedExit
withdraw amounts replaced by Some of the encoded amount rather than by the
default None the claim states. -/
theorem codec_roundtrip_projection (op : FranklinOp) (h : wfOp op) :
    FranklinOp.from_public_data (FranklinOp.public_data op) = .ok (decodedProjection op) := by
  cases op with
  | noop =>
    have hpd : NoopOp.get_public_data = List.replicate 9 0 := by
      simp [NoopOp.get_public_data, resizeTo, NoopOp.CHUNKS, CHUNK_BYTES]
    simp [FranklinOp.public_data, hpd, FranklinOp.from_public_data,
      NoopOp.from_public_data, decodedProjection, CHUNK_BYTES, List.replicate_succ,
      except_map_ok]
  | deposit o =>
    obtain ⟨h1, h2, h3, h4⟩ := h
    have hpd : DepositOp.get_public_data o =
        [1] ++ beBytes 4 o.accountId ++ beBytes 2 o.priorityOp.token
          ++ beBytes 16 o.priorityOp.amount ++ o.priorityOp.toAddress
          ++ List.replicate 11 0 := by
      simp only [DepositOp.get_public_data]
      rw [resizeTo_of_le _ _ _ (by simp [length_beBytes, h4, DepositOp.CHUNKS, CHUNK_BYTES])]
      simp [length_beBytes, h4, DepositOp.CHUNKS, CHUNK_BYTES]
    simp [FranklinOp.public_data, hpd, FranklinOp.from_public_data,
      DepositOp.from_public_data, decodedProjection,
      ACCOUNT_ID_BIT_WIDTH, TOKEN_BIT_WIDTH, BALANCE_BIT_WIDTH, FR_ADDRESS_LEN,
      CHUNK_BYTES, DepositOp.CHUNKS,
      sliceN_cons_of_pos, sliceN_append_of_le, sliceN_prefix, length_beBytes, h4,
      liftOpt_some, except_bind_ok, except_map_ok, except_functor_ok,
      uint32_beBytes h1, uint16_beBytes h2, uint128_beBytes h3]
  | transferToNew o =>
    obtain ⟨h1, h2, h3, h4, h5, h6, h7⟩ := h
    have hpd : TransferToNewOp.get_public_data o =
        [2] ++ beBytes 4 o.fromId ++ beBytes 2 o.tx.token ++ pack_token_amount o.tx.amount
          ++ o.tx.toAddress ++ beBytes 4 o.toId ++ pack_fee_amount o.tx.fee
          ++ List.replicate 18 0 := by
      simp only [TransferToNewOp.get_public_data]
      rw [resizeTo_of_le _ _ _ (by
        simp [length_beBytes, h4, length_pack_token_amount, length_pack_fee_amount,
          TransferToNewOp.CHUNKS, CHUNK_BYTES])]
      simp [length_beBytes, h4, length_pack_token_amount, length_pack_fee_amount,
        TransferToNewOp.CHUNKS, CHUNK_BYTES]
    simp [FranklinOp.public_data, hpd, FranklinOp.from_public_data,
      TransferToNewOp.from_public_data, decodedProjection,
      ACCOUNT_ID_BIT_WIDTH, TOKEN_BIT_WIDTH, FR_ADDRESS_LEN,
      AMOUNT_EXPONENT_BIT_WIDTH, AMOUNT_MANTISSA_BIT_WIDTH,
      FEE_EXPONENT_BIT_WIDTH, FEE_MANTISSA_BIT_WIDTH,
      CHUNK_BYTES, TransferToNewOp.CHUNKS,
      sliceN_cons_of_pos, sliceN_append_of_le, sliceN_prefix, length_beBytes, h4,
      length_pack_token_amount, length_pack_fee_amount,
      liftOpt_some, except_bind_ok, except_map_ok, except_functor_ok,
      uint32_beBytes h1, uint32_beBytes h2, uint16_beBytes h3, h5, h6, h7]
  | withdraw o =>
    obtain ⟨h1, h2, h3, h4, h5, h6⟩ := h
    have hpd : WithdrawOp.get_public_data o =
        [3] ++ beBytes 4 o.accountId ++ beBytes 2 o.tx.token ++ beBytes 16 o.tx.amount
          ++ pack_fee_amount o.tx.fee ++ o.tx.toAddress ++ List.replicate 9 0 := by
      simp only [WithdrawOp.get_public_data]
      rw [resizeTo_of_le _ _ _ (by
        simp [length_beBytes, h4, length_pack_fee_amount, WithdrawOp.CHUNKS, CHUNK_BYTES])]
      simp [length_beBytes, h4, length_pack_fee_amount, WithdrawOp.CHUNKS, CHUNK_BYTES]
    simp [FranklinOp.public_data, hpd, FranklinOp.from_public_data,
      WithdrawOp.from_public_data, decodedProjection,
      ACCOUNT_ID_BIT_WIDTH, TOKEN_BIT_WIDTH, BALANCE_BIT_WIDTH, ETH_ADDRESS_BIT_WIDTH,
      FEE_EXPONENT_BIT_WIDTH, FEE_MANTISSA_BIT_WIDTH,
      CHUNK_BYTES, WithdrawOp.CHUNKS,
      sliceN_cons_of_pos, sliceN_append_of_le, sliceN_prefix, length_beBytes, h4,
      length_pack_fee_amount,
      liftOpt_some, except_bind_ok, except_map_ok, except_functor_ok,
      uint32_beBytes h1, uint16_beBytes h2, uint128_beBytes h3, h5, h6]
  | close o =>
    have h1 : o.accountId < 256 ^ 4 := h
    have hpd : CloseOp.get_public_data o =
        [4] ++ beBytes 4 o.accountId ++ List.replicate 4 0 := by
      simp only [CloseOp.get_public_data]
      rw [resizeTo_of_le _ _ _ (by simp [length_beBytes, CloseOp.CHUNKS, CHUNK_BYTES])]
      simp [length_beBytes, CloseOp.CHUNKS, CHUNK_BYTES]
    simp [FranklinOp.public_data, hpd, FranklinOp.from_public_data,
      CloseOp.from_public_data, decodedProjection,
      ACCOUNT_ID_BIT_WIDTH, CHUNK_BYTES, CloseOp.CHUNKS,
      sliceN_cons_of_pos, sliceN_append_of_le, sliceN_prefix, length_beBytes,
      liftOpt_some, except_bind_ok, except_map_ok, except_functor_ok,
      uint32_beBytes h1]
  | transfer o =>
    obtain ⟨h1, h2, h3, h4, h5, h6⟩ := h
    have hpd : TransferOp.get_public_data o =
        [5] ++ beBytes 4 o.fromId ++ beBytes 2 o.tx.token ++ beBytes 4 o.toId
          ++ pack_token_amount o.tx.amount ++ pack_fee_amount o.tx.fee
          ++ List.replicate 2 0 := by
      simp only [TransferOp.get_public_data]
      rw [resizeTo_of_le _ _ _ (by
        simp [length_beBytes, length_pack_token_amount, length_pack_fee_amount,
          TransferOp.CHUNKS, CHUNK_BYTES])]
      simp [length_beBytes, length_pack_token_amount, length_pack_fee_amount,
        TransferOp.CHUNKS, CHUNK_BYTES]
    simp [FranklinOp.public_data, hpd, FranklinOp.from_public_data,
      TransferOp.from_public_data, decodedProjection,
      ACCOUNT_ID_BIT_WIDTH, TOKEN_BIT_WIDTH,
      AMOUNT_EXPONENT_BIT_WIDTH, AMOUNT_MANTISSA_BIT_WIDTH,
      FEE_EXPONENT_BIT_WIDTH, FEE_MANTISSA_BIT_WIDTH,
      CHUNK_BYTES, TransferOp.CHUNKS,
      sliceN_cons_of_pos, sliceN_append_of_le, sliceN_prefix, length_beBytes,
      length_pack_token_amount, length_pack_fee_amount,
      liftOpt_some, except_bind_ok, except_map_ok, except_functor_ok,
      uint32_beBytes h1, uint32_beBytes h2, uint16_beBytes h3, h4, h5, h6]
  | fullExit o =>
    obtain ⟨h1, h2, h3, h4⟩ := h
    have hpd : FullExitOp.get_public_data o =
        [6] ++ beBytes 4 o.priorityOp.accountId ++ o.priorityOp.ethAddress
          ++ beBytes 2 o.priorityOp.token ++ beBytes 16 (o.withdrawAmount.getD 0)
          ++ List.replicate 11 0 := by
      simp only [FullExitOp.get_public_data]
      rw [resizeTo_of_le _ _ _ (by simp [length_beBytes, h2, FullExitOp.CHUNKS, CHUNK_BYTES])]
      simp [length_beBytes, h2, FullExitOp.CHUNKS, CHUNK_BYTES]
    simp [FranklinOp.public_data, hpd, FranklinOp.from_public_data,
      FullExitOp.from_public_data, decodedProjection,
      ACCOUNT_ID_BIT_WIDTH, TOKEN_BIT_WIDTH, BALANCE_BIT_WIDTH, ETH_ADDRESS_BIT_WIDTH,
      CHUNK_BYTES, FullExitOp.CHUNKS,
      sliceN_cons_of_pos, sliceN_append_of_le, sliceN_prefix, length_beBytes, h2,
      liftOpt_some, except_bind_ok, except_map_ok, except_functor_ok,
      uint32_beBytes h1, uint16_beBytes h3, uint128_beBytes h4]
  | changePubKeyOffchain o =>
    obtain ⟨h1, h2, h3, h4, h5, h6, h7⟩ := h
    have hpd : ChangePubKeyOp.get_public_data o =
        [7] ++ beBytes 4 o.accountId ++ o.tx.newPkHash ++ o.tx.account
          ++ beBytes 4 o.tx.nonce ++ beBytes 2 o.tx.feeToken ++ pack_fee_amount o.tx.fee
          ++ List.replicate 1 0 := by
      simp only [ChangePubKeyOp.get_public_data]
      rw [resizeTo_of_le _ _ _ (by
        simp [length_beBytes, h2, h3, length_pack_fee_amount,
          ChangePubKeyOp.CHUNKS, CHUNK_BYTES])]
      simp [length_beBytes, h2, h3, length_pack_fee_amount, ChangePubKeyOp.CHUNKS, CHUNK_BYTES]
    simp [FranklinOp.public_data, hpd, FranklinOp.from_public_data,
      ChangePubKeyOp.from_public_data, decodedProjection,
      ACCOUNT_ID_BIT_WIDTH, NEW_PUBKEY_HASH_WIDTH, ADDRESS_WIDTH, NONCE_BIT_WIDTH,
      TOKEN_BIT_WIDTH, FEE_EXPONENT_BIT_WIDTH, FEE_MANTISSA_BIT_WIDTH,
      CHUNK_BYTES, ChangePubKeyOp.CHUNKS,
      sliceN_cons_of_pos, sliceN_append_of_le, sliceN_prefix, length_beBytes, h2, h3,
      length_pack_fee_amount, pubKeyHashFromBytes_of_length,
      liftOpt_some, except_bind_ok, except_map_ok, except_functor_ok,
      uint32_beBytes h1, uint32_beBytes h4, uint16_beBytes h5, h6, h7]
  | forcedExit o =>
    obtain ⟨h1, h2, h3, h4, h5, h6⟩ := h
    have hpd : ForcedExitOp.get_public_data o =
        [8] ++ beBytes 4 o.tx.initiatorAccountId ++ beBytes 4 o.targetAccountId
          ++ beBytes 2 o.tx.token ++ beBytes 16 (o.withdrawAmount.getD 0)
          ++ pack_fee_amount o.tx.fee ++ o.tx.target ++ List.replicate 5 0 := by
      simp only [ForcedExitOp.get_public_data]
      rw [resizeTo_of_le _ _ _ (by
        simp [length_beBytes, h5, length_pack_fee_amount, ForcedExitOp.CHUNKS, CHUNK_BYTES])]
      simp [length_beBytes, h5, length_pack_fee_amount, ForcedExitOp.CHUNKS, CHUNK_BYTES,
        ForcedExitOp.amount]
    simp [FranklinOp.public_data, hpd, FranklinOp.from_public_data,
      ForcedExitOp.from_public_data, decodedProjection,
      ACCOUNT_ID_BIT_WIDTH, TOKEN_BIT_WIDTH, BALANCE_BIT_WIDTH, ETH_ADDRESS_BIT_WIDTH,
      FEE_EXPONENT_BIT_WIDTH, FEE_MANTISSA_BIT_WIDTH,
      CHUNK_BYTES, ForcedExitOp.CHUNKS,
      sliceN_cons_of_pos, sliceN_append_of_le, sliceN_prefix, length_beBytes, h5,
      length_pack_fee_amount,
      liftOpt_some, except_bind_ok, except_map_ok, except_functor_ok,
      uint32_beBytes h1, uint32_beBytes h2, uint16_beBytes h3, uint128_beBytes h4, h6]

/-- Claim C4, counterexample: FullExit with a successful withdraw of 5
decodes back to withdraw_amount Some 5 and not to the field default None the
claim requires for fields listed as unknown from pubdata. -/
theorem codec_roundtrip_withdraw_amount_cex :
    FranklinOp.from_public_data (FranklinOp.public_data (.fullExit sampleFullExitOp)) =
      .ok (.fullExit { priorityOp := sampleFullExitOp.priorityOp, withdrawAmount := some 5 }) ∧
    FranklinOp.from_public_data (FranklinOp.public_data (.fullExit sampleFullExitOp)) ≠
      .ok (.fullExit { priorityOp := sampleFullExitOp.priorityOp, withdrawAmount := none }) := by
  constructor <;> decide

/-- Claim C4, witness: the round-trip projection theorem applied to the
concrete valid transfer operation of spec scenario S2. -/
theorem codec_roundtrip_projection_w :
    wfOp (.transfer sampleTransferOp) ∧
    FranklinOp.from_public_data (FranklinOp.public_data (.transfer sampleTransferOp)) =
      .ok (decodedProjection (.transfer sampleTransferOp)) :=
  ⟨by decide, codec_roundtrip_projection (.transfer sampleTransferOp) (by decide)⟩

/-- Claim C3 (amended): every operation kind except ChangePubKey rejects any
input whose length is not exactly CHUNKS times CHUNK_BYTES;
ChangePubKeyOp::from_public_data only checks that the input reaches the end
of its fee field, rejecting inputs shorter than 53 bytes and accepting every
input of length at least 53, including lengths other than 54. -/
theorem from_public_data_length_check (bytes : List Nat) :
    (bytes.length ≠ NoopOp.CHUNKS * CHUNK_BYTES → (NoopOp.from_public_data bytes).isOk = false) ∧
    (bytes.length ≠ DepositOp.CHUNKS * CHUNK_BYTES → (DepositOp.from_public_data bytes).isOk = false) ∧
    (bytes.length ≠ TransferToNewOp.CHUNKS * CHUNK_BYTES → (TransferToNewOp.from_public_data bytes).isOk = false) ∧
    (bytes.length ≠ WithdrawOp.CHUNKS * CHUNK_BYTES → (WithdrawOp.from_public_data bytes).isOk = false) ∧
    (bytes.length ≠ CloseOp.CHUNKS * CHUNK_BYTES → (CloseOp.from_public_data bytes).isOk = false) ∧
    (bytes.length ≠ TransferOp.CHUNKS * CHUNK_BYTES → (TransferOp.from_public_data bytes).isOk = false) ∧
    (bytes.length ≠ FullExitOp.CHUNKS * CHUNK_BYTES → (FullExitOp.from_public_data bytes).isOk = false) ∧
    (bytes.length ≠ ForcedExitOp.CHUNKS * CHUNK_BYTES → (ForcedExitOp.from_public_data bytes).isOk = false) ∧
    ((bytes.length < 53 → (ChangePubKeyOp.from_public_data bytes).isOk = false) ∧
     (53 ≤ bytes.length → (ChangePubKeyOp.from_public_data bytes).isOk = true)) := by
  refine ⟨?_, ?_, ?_, ?_, ?_, ?_, ?_, ?_, ?_⟩
  · intro hW
    have hne : bytes ≠ List.replicate CHUNK_BYTES 0 := by
      intro he
      exact hW (by simp [he, CHUNK_BYTES, NoopOp.CHUNKS])
    simp [NoopOp.from_public_data, hne, except_isOk_error]
  · intro hW
    simp only [DepositOp.from_public_data]
    rw [if_neg hW]
    rfl
  · intro hW
    simp only [TransferToNewOp.from_public_data]
    rw [if_neg hW]
    rfl
  · intro hW
    simp only [WithdrawOp.from_public_data]
    rw [if_neg hW]
    rfl
  · intro hW
    simp only [CloseOp.from_public_data]
    rw [if_neg hW]
    rfl
  · intro hW
    simp only [TransferOp.from_public_data]
    rw [if_neg hW]
    rfl
  · intro hW
    simp only [FullExitOp.from_public_data]
    rw [if_neg hW]
    rfl
  · intro hW
    simp only [ForcedExitOp.from_public_data]
    rw [if_neg hW]
    rfl
  · constructor
    · intro hW
      have hle : ¬ (53 ≤ bytes.length) := by omega
      simp [ChangePubKeyOp.from_public_data, ACCOUNT_ID_BIT_WIDTH, NEW_PUBKEY_HASH_WIDTH,
        ADDRESS_WIDTH, NONCE_BIT_WIDTH, TOKEN_BIT_WIDTH, FEE_EXPONENT_BIT_WIDTH,
        FEE_MANTISSA_BIT_WIDTH, hle, except_isOk_error]
    · intro hge
      have l1 : (sliceN bytes 1 4).length = 4 := by
        simp [sliceN]
        omega
      have l2 : (sliceN bytes 5 20).length = 20 := by
        simp [sliceN]
        omega
      have l3 : (sliceN bytes 45 4).length = 4 := by
        simp [sliceN]
        omega
      have l4 : (sliceN bytes 49 2).length = 2 := by
        simp [sliceN]
        omega
      have l5 : (sliceN bytes 51 2).length = 2 := by
        simp [sliceN]
        omega
      simp [ChangePubKeyOp.from_public_data, ACCOUNT_ID_BIT_WIDTH, NEW_PUBKEY_HASH_WIDTH,
        ADDRESS_WIDTH, NONCE_BIT_WIDTH, TOKEN_BIT_WIDTH, FEE_EXPONENT_BIT_WIDTH,
        FEE_MANTISSA_BIT_WIDTH, hge, bytesSliceToUint32, bytesSliceToUint16,
        unpack_fee_amount, pubKeyHashFromBytes, l1, l2, l3, l4, l5, liftOpt,
        except_bind_ok, except_isOk_ok]

/-- Claim C3, witness: the length checks applied to the empty input, which
every kind rejects. -/
theorem from_public_data_length_check_w :
    (List.length ([] : List Nat) ≠ DepositOp.CHUNKS * CHUNK_BYTES) ∧
    (DepositOp.from_public_data []).isOk = false ∧
    (ChangePubKeyOp.from_public_data []).isOk = false ∧
    (ChangePubKeyOp.from_public_data (List.replicate 53 0)).isOk = true :=
  ⟨by decide, (from_public_data_length_check []).2.1 (by decide),
    ((from_public_data_length_check []).2.2.2.2.2.2.2.2).1 (by decide),
    ((from_public_data_length_check (List.replicate 53 0)).2.2.2.2.2.2.2.2).2 (by decide)⟩

/-- Claim C3, counterexample: ChangePubKeyOp::from_public_data accepts a
55-byte input, one byte longer than CHUNKS times CHUNK_BYTES = 54. -/
theorem changePubKey_oversize_cex :
    (ChangePubKeyOp.from_public_data (7 :: List.replicate 54 0)).isOk = true ∧
    (7 :: List.replicate 54 0).length ≠ ChangePubKeyOp.CHUNKS * CHUNK_BYTES := by
  constructor <;> decide

/-- Claim C9: NoopOp::from_public_data succeeds exactly on a CHUNK_BYTES-long
all-zero input; any other length or any nonzero byte is rejected. -/
theorem noop_from_public_data_iff (bytes : List Nat) :
    (NoopOp.from_public_data bytes).isOk = true ↔
      bytes.length = CHUNK_BYTES ∧ ∀ b ∈ bytes, b = 0 := by
  constructor
  · intro h
    by_cases hb : bytes = List.replicate CHUNK_BYTES 0
    · subst hb
      simp [List.mem_replicate]
    · simp [NoopOp.from_public_data, hb, except_isOk_error] at h
  · intro ⟨hl, hz⟩
    have hb : bytes = List.replicate CHUNK_BYTES 0 := List.eq_replicate_iff.mpr ⟨hl, hz⟩
    simp [NoopOp.from_public_data, hb, except_isOk_ok]

/-- Claim C6, witness: the layout theorem applied to the concrete valid
deposit operation of spec scenario S1. -/
theorem public_data_matches_spec_layout_w :
    wfOp (.deposit sampleDepositOp) ∧
    (FranklinOp.public_data (.deposit sampleDepositOp) = claimLayout (.deposit sampleDepositOp) ∧
     (FranklinOp.public_data (.deposit sampleDepositOp)).length =
       FranklinOp.chunks (.deposit sampleDepositOp) * CHUNK_BYTES) :=
  ⟨by decide, public_data_matches_spec_layout (.deposit sampleDepositOp) (by decide)⟩

/-! Bit-level lemmas for the public-data commitment. -/

theorem cond_mod_two (x : Nat) : cond (x % 2 == 1) 1 0 = x % 2 := by
  rcases Nat.mod_two_eq_zero_or_one x with h | h <;> simp [h]

theorem bitsToBytes_byte (b : Nat) (hb : b < 256) (l : List Bool) :
    bitsToBytes (toBits 8 b ++ l) = b :: bitsToBytes l := by
  have ha : toBits 8 b = [b/2/2/2/2/2/2/2 % 2 == 1, b/2/2/2/2/2/2 % 2 == 1,
      b/2/2/2/2/2 % 2 == 1, b/2/2/2/2 % 2 == 1, b/2/2/2 % 2 == 1, b/2/2 % 2 == 1,
      b/2 % 2 == 1, b % 2 == 1] := rfl
  rw [ha]
  show (128 * cond (b/2/2/2/2/2/2/2 % 2 == 1) 1 0 + 64 * cond (b/2/2/2/2/2/2 % 2 == 1) 1 0
      + 32 * cond (b/2/2/2/2/2 % 2 == 1) 1 0 + 16 * cond (b/2/2/2/2 % 2 == 1) 1 0
      + 8 * cond (b/2/2/2 % 2 == 1) 1 0 + 4 * cond (b/2/2 % 2 == 1) 1 0
      + 2 * cond (b/2 % 2 == 1) 1 0 + cond (b % 2 == 1) 1 0) :: bitsToBytes l
      = b :: bitsToBytes l
  simp only [cond_mod_two]
  congr 1
  omega

theorem toBits_split (m n x : Nat) :
    toBits (m + n) x = toBits m (x / 2 ^ n) ++ toBits n (x % 2 ^ n) := by
  induction n generalizing x with
  | zero => simp [toBits]
  | succ n ih =>
    have h1 : toBits (m + (n + 1)) x = toBits (m + n) (x / 2) ++ [x % 2 == 1] := rfl
    have h2 : x / 2 / 2 ^ n = x / 2 ^ (n + 1) := by
      rw [Nat.div_div_eq_div_mul, pow_succ, mul_comm 2 (2 ^ n)]
    have h3 : x % 2 ^ (n + 1) / 2 = x / 2 % 2 ^ n := by
      have : (2 : Nat) ^ (n + 1) = 2 * 2 ^ n := by ring
      rw [this]
      exact Nat.mod_mul_right_div_self x 2 (2 ^ n)
    have h4 : x % 2 ^ (n + 1) % 2 = x % 2 := by
      exact Nat.mod_mod_of_dvd x (dvd_pow_self 2 (Nat.succ_ne_zero n))
    have h5 : toBits (n + 1) (x % 2 ^ (n + 1)) =
        toBits n (x % 2 ^ (n + 1) / 2) ++ [x % 2 ^ (n + 1) % 2 == 1] := rfl
    rw [h1, ih, h2, h5, h3, h4, List.append_assoc]

theorem bitsToBytes_toBits (k : Nat) : ∀ (x : Nat), x < 256 ^ k → ∀ (l : List Bool),
    bitsToBytes (toBits (8 * k) x ++ l) = beBytes k x ++ bitsToBytes l := by
  induction k with
  | zero =>
    intro x hx l
    interval_cases x
    simp [toBits, beBytes]
  | succ k ih =>
    intro x hx l
    have hsplit : toBits (8 * (k + 1)) x = toBits (8 * k) (x / 2 ^ 8) ++ toBits 8 (x % 2 ^ 8) := by
      have h : 8 * (k + 1) = 8 * k + 8 := by ring
      rw [h, toBits_split]
    have hdiv : x / 2 ^ 8 < 256 ^ k := by
      apply Nat.div_lt_of_lt_mul
      calc x < 256 ^ (k + 1) := hx
        _ = 2 ^ 8 * 256 ^ k := by norm_num [pow_succ]; ring
    have hmod : x % 2 ^ 8 < 256 := by
      have := Nat.mod_lt x (y := 2 ^ 8) (by norm_num)
      omega
    rw [hsplit, List.append_assoc, ih (x / 2 ^ 8) hdiv _, bitsToBytes_byte (x % 2 ^ 8) hmod l]
    show beBytes k (x / 2 ^ 8) ++ (x % 2 ^ 8) :: bitsToBytes l
        = beBytes k (x / 256) ++ [x % 256] ++ bitsToBytes l
    norm_num

theorem bitsToBytes_toBits256 (x : Nat) (h : x < 2 ^ 256) (l : List Bool) :
    bitsToBytes (toBits 256 x ++ l) = beBytes 32 x ++ bitsToBytes l := by
  have h1 : toBits 256 x = toBits (8 * 32) x := by norm_num
  rw [h1]
  exact bitsToBytes_toBits 32 x (by omega) l

theorem bitsToBytes_nil : bitsToBytes [] = [] := rfl

theorem maskTop3_spec (l : List Nat) :
    maskTop3 l = (match l with | [] => [] | b :: rest => (b % 32) :: rest) := by
  cases l with
  | nil => rfl
  | cons b rest =>
    show (b &&& 0x1f) :: rest = (b % 32) :: rest
    rw [Nat.and_pow_two_sub_one_eq_mod b 5]

theorem beRead_maskTop3_lt (l : List Nat) (hlen : l.length = 32)
    (hb : ∀ b ∈ l, b < 256) : beRead (maskTop3 l) < rBN := by
  cases l with
  | nil => simp at hlen
  | cons b rest =>
    have hrest : beRead rest < 256 ^ rest.length := by
      exact beRead_lt rest (fun c hc => hb c (by simp [hc]))
    have hrl : rest.length = 31 := by simpa using hlen
    have hmask : b &&& 0x1f < 32 := by
      rw [Nat.and_pow_two_sub_one_eq_mod b 5]
      omega
    show beRead ((b &&& 0x1f) :: rest) < rBN
    rw [beRead_cons, hrl]
    rw [hrl] at hrest
    calc (b &&& 0x1f) * 256 ^ 31 + beRead rest
        < (b &&& 0x1f) * 256 ^ 31 + 256 ^ 31 := by omega
      _ = ((b &&& 0x1f) + 1) * 256 ^ 31 := by ring
      _ ≤ 32 * 256 ^ 31 := Nat.mul_le_mul_right _ (by omega)
      _ < rBN := by norm_num [rBN]

/-- Claim C1: the public-data commitment of apply_and_prove_transfer equals
the chained hash stated by the spec, with a 64-byte first input holding the
256-bit big-endian block number and total fees; for deposit and exit blocks
the first input is only the 32-byte block number. The code computes the
first input at the bit level and masks the first digest byte with 0x1f;
frFromRepr succeeds because the masked digest is below the field order. -/
theorem commitment_chained_hash (sha : List Nat → List Nat)
    (hlen : ∀ l, (sha l).length = 32) (hbytes : ∀ l b, b ∈ sha l → b < 256)
    (bn fees : Nat) (hbn : bn < 2 ^ 256) (hf : fees < 2 ^ 256) (pd : List Nat) :
    commitTransferCode sha bn fees pd =
      some (commitChainedSpec sha (beBytes 32 bn ++ beBytes 32 fees) pd) ∧
    commitDepositExitCode sha bn pd = some (commitChainedSpec sha (beBytes 32 bn) pd) := by
  have hin1 : bitsToBytes (toBits 256 bn ++ toBits 256 fees) = beBytes 32 bn ++ beBytes 32 fees := by
    rw [bitsToBytes_toBits256 bn hbn]
    rw [show toBits 256 fees = toBits 256 fees ++ [] by simp]
    rw [bitsToBytes_toBits256 fees hf, bitsToBytes_nil, List.append_nil]
  have hin2 : bitsToBytes (toBits 256 bn) = beBytes 32 bn := by
    rw [show toBits 256 bn = toBits 256 bn ++ [] by simp]
    rw [bitsToBytes_toBits256 bn hbn, bitsToBytes_nil, List.append_nil]
  constructor
  · show frFromRepr (beRead (maskTop3 (sha (sha (bitsToBytes (toBits 256 bn ++ toBits 256 fees)) ++ pd)))) = _
    rw [hin1]
    rw [frFromRepr, if_pos (beRead_maskTop3_lt _ (hlen _) (fun b hb => hbytes _ b hb))]
    rw [commitChainedSpec, maskTop3_spec]
  · show frFromRepr (beRead (maskTop3 (sha (sha (bitsToBytes (toBits 256 bn)) ++ pd)))) = _
    rw [hin2]
    rw [frFromRepr, if_pos (beRead_maskTop3_lt _ (hlen _) (fun b hb => hbytes _ b hb))]
    rw [commitChainedSpec, maskTop3_spec]

/-- Claim C1, witness: the commitment equality at the concrete digest
function shaW, block number 1, zero fees and empty public data. -/
theorem commitment_chained_hash_w :
    commitTransferCode shaW 1 0 [] =
      some (commitChainedSpec shaW (beBytes 32 1 ++ beBytes 32 0) []) ∧
    commitDepositExitCode shaW 1 [] = some (commitChainedSpec shaW (beBytes 32 1) []) :=
  commitment_chained_hash shaW (fun _ => by simp [shaW])
    (fun l b hb => by
      simp only [shaW, List.mem_replicate] at hb
      omega)
    1 0 (by norm_num) (by norm_num) []

/-! Lemmas about the account tree. -/

theorem treeGet_insert_self (t : Tree) (k : Nat) (v : CAccount) :
    treeGet (treeInsert t k v) k = some v := by
  induction t with
  | nil => simp [treeInsert, treeGet]
  | cons p rest ih =>
    obtain ⟨k1, a1⟩ := p
    by_cases h : k1 = k
    · simp [treeInsert, treeGet, h]
    · simp [treeInsert, treeGet, h, ih]

theorem treeGet_insert_other (t : Tree) (k k2 : Nat) (v : CAccount) (h : k ≠ k2) :
    treeGet (treeInsert t k v) k2 = treeGet t k2 := by
  induction t with
  | nil => simp [treeInsert, treeGet, h]
  | cons p rest ih =>
    obtain ⟨k1, a1⟩ := p
    by_cases h1 : k1 = k
    · subst h1
      simp [treeInsert, treeGet, h]
    · simp only [treeInsert, if_neg h1]
      by_cases h2 : k1 = k2
      · simp [treeGet, h2]
      · simp [treeGet, h2, ih]

/-- Claim C7: a block whose number differs from the engine cursor is rejected
by all three apply_and_prove paths with a sequence error, and the returned
state (tree and cursor alike) is exactly the input state. -/
theorem sequence_guard (env : Env) (st : ProverState) (block : Block)
    (txsT : List CTransferTx) (txsD : List CDepositTx) (txsE : List CExitTx)
    (h : block.blockNumber ≠ st.blockNumber) :
    applyAndProveTransfer env st block txsT = (.error .otherIncorrectBlock, st) ∧
    applyAndProveDeposit env st block txsD = (.error .otherBlockNumberMismatch, st) ∧
    applyAndProveExit env st block txsE = (.error .otherBlockNumberMismatch, st) := by
  refine ⟨?_, ?_, ?_⟩
  · simp [applyAndProveTransfer, h]
  · simp [applyAndProveDeposit, h]
  · simp [applyAndProveExit, h]

/-- Claim C7, witness: the sequence guard applied to a block numbered 5
against a prover at block 0. -/
theorem sequence_guard_w :
    blockBad.blockNumber ≠ stW.blockNumber ∧
    applyAndProveTransfer envBase stW blockBad [txW] = (.error .otherIncorrectBlock, stW) ∧
    applyAndProveExit envBase stW blockBad [exitW] = (.error .otherBlockNumberMismatch, stW) :=
  ⟨by decide, (sequence_guard envBase stW blockBad [txW] [] [exitW] (by decide)).1,
    (sequence_guard envBase stW blockBad [txW] [] [exitW] (by decide)).2.2⟩

/-- Claim C2: apply_and_prove_exit compares the transaction count against
self.deposit_batch_size, not self.exit_batch_size. Evaluated at the failing
input: a prover whose exit batch size is 2 and deposit batch size is 3
rejects an exit block of exactly exit_batch_size transactions with the
deposit-batch-size error, before touching the tree. -/
theorem exit_batch_uses_deposit_size_cex :
    [exitW, exitW].length = stW.exitBatchSize ∧
    stW.exitBatchSize ≠ stW.depositBatchSize ∧
    blockW.blockNumber = stW.blockNumber ∧
    applyAndProveExit envBase stW blockW [exitW, exitW] =
      (.error .otherWrongDepositBatchSize, stW) := by
  refine ⟨by decide, by decide, by decide, by decide⟩

/-- Claim C10: for each of the three block kinds, when the transaction loop
succeeds and leaves the root hash of the tree equal to the initial root, the
call returns an error, whatever the declared new root hash of the block
says. -/
theorem state_preserving_block_rejected (env : Env) (st : ProverState) (block : Block)
    (txsT : List CTransferTx) (txsD : List CDepositTx) (txsE : List CExitTx) :
    ((runTransferTxs env st.accountsTree 0 txsT).1 = .ok () →
      env.rootHash (runTransferTxs env st.accountsTree 0 txsT).2.1 =
        env.rootHash st.accountsTree →
      (applyAndProveTransfer env st block txsT).1.isOk = false) ∧
    ((runDepositTxs env st.accountsTree txsD).1 = .ok () →
      env.rootHash (runDepositTxs env st.accountsTree txsD).2 =
        env.rootHash st.accountsTree →
      (applyAndProveDeposit env st block txsD).1.isOk = false) ∧
    ((runExitTxs env st.accountsTree [] txsE).1 = .ok () →
      env.rootHash (runExitTxs env st.accountsTree [] txsE).2.1 =
        env.rootHash st.accountsTree →
      (applyAndProveExit env st block txsE).1.isOk = false) := by
  refine ⟨?_, ?_, ?_⟩
  · intro h1 h2
    unfold applyAndProveTransfer
    split
    · rfl
    · split
      · rfl
      · split
        next e tree1 snd heq => rfl
        next u tree1 fees heq =>
          rw [heq] at h2
          simp only at h2
          rw [if_pos h2.symm]
          rfl
  · intro h1 h2
    unfold applyAndProveDeposit
    split
    · rfl
    · split
      · rfl
      · split
        next e tree1 heq => rfl
        next u tree1 heq =>
          rw [heq] at h2
          simp only at h2
          rw [if_pos h2.symm]
          rfl
  · intro h1 h2
    unfold applyAndProveExit
    split
    · rfl
    · split
      · rfl
      · split
        next e tree1 snd heq => rfl
        next u tree1 pd heq =>
          rw [heq] at h2
          simp only at h2
          rw [if_pos h2.symm]
          rfl

/-- Claim C10, witness: under the constant root hash of envConstRoot every
successfully applied batch is state-preserving for the root comparison, and
all three kinds reject the concrete scenario batches. -/
theorem state_preserving_block_rejected_w :
    (runTransferTxs envConstRoot stW.accountsTree 0 [txW]).1 = .ok () ∧
    (applyAndProveTransfer envConstRoot stW blockW [txW]).1.isOk = false ∧
    (applyAndProveDeposit envConstRoot stW blockW [depW, depW, depW]).1.isOk = false ∧
    (applyAndProveExit envConstRoot stW blockW [exitW, exitW, exitW]).1.isOk = false :=
  ⟨by decide,
    (state_preserving_block_rejected envConstRoot stW blockW [txW] [depW, depW, depW]
      [exitW, exitW, exitW]).1 (by decide) (by decide),
    (state_preserving_block_rejected envConstRoot stW blockW [txW] [depW, depW, depW]
      [exitW, exitW, exitW]).2.1 (by decide) (by decide),
    (state_preserving_block_rejected envConstRoot stW blockW [txW] [depW, depW, depW]
      [exitW, exitW, exitW]).2.2 (by decide) (by decide)⟩

/-- Every error of the transfer loop body arises before the root checks:
the circuit conversion failure or the unknown sender. -/
theorem applyTransferTx_error_stage (env : Env) {tree : Tree} {fees : Nat}
    {tx : CTransferTx} {e : PErr} (h : applyTransferTx env tree fees tx = .error e) :
    e.afterRootChecks = false := by
  unfold applyTransferTx at h
  rcases htf : env.tryFromTransfer tx with u | ctx
  · simp only [htf, Except.error.injEq] at h
    subst h
    rfl
  · rcases hg : treeGet tree (fieldElementToU32 ctx.fromId) with _ | sender
    · simp only [htf, hg, Except.error.injEq] at h
      subst h
      rfl
    · simp only [htf, hg] at h
      simp at h

/-- Every error of the transfer loop arises before the root checks. -/
theorem runTransferTxs_error_stage (env : Env) (txs : List CTransferTx) :
    ∀ (tree : Tree) (fees : Nat) (e : PErr) (tr : Tree) (f : Nat),
    runTransferTxs env tree fees txs = (.error e, tr, f) → e.afterRootChecks = false := by
  induction txs with
  | nil =>
    intro tree fees e tr f h
    simp [runTransferTxs] at h
  | cons t rest ih =>
    intro tree fees e tr f h
    unfold runTransferTxs at h
    split at h
    next e2 heq =>
      have he : e2 = e := by
        have := congrArg Prod.fst h
        simpa using this
      exact he ▸ applyTransferTx_error_stage env heq
    next p heq =>
      exact ih _ _ e tr f h

/-- Every error of the deposit loop body arises before the root checks:
the circuit conversion failure or the invalid public key. -/
theorem applyDepositTx_error_stage (env : Env) {tree : Tree} {tx : CDepositTx}
    {e : PErr} (h : applyDepositTx env tree tx = .error e) :
    e.afterRootChecks = false := by
  unfold applyDepositTx at h
  rcases htf : env.tryFromDeposit tx with u | ctx
  · simp only [htf, Except.error.injEq] at h
    subst h
    rfl
  · simp only [htf] at h
    split at h
    · simp at h
    · simp only [Except.error.injEq] at h
      subst h
      rfl

/-- Every error of the deposit loop arises before the root checks. -/
theorem runDepositTxs_error_stage (env : Env) (txs : List CDepositTx) :
    ∀ (tree : Tree) (e : PErr) (tr : Tree),
    runDepositTxs env tree txs = (.error e, tr) → e.afterRootChecks = false := by
  induction txs with
  | nil =>
    intro tree e tr h
    simp [runDepositTxs] at h
  | cons t rest ih =>
    intro tree e tr h
    unfold runDepositTxs at h
    split at h
    next e2 heq =>
      have he : e2 = e := by
        have := congrArg Prod.fst h
        simpa using this
      exact he ▸ applyDepositTx_error_stage env heq
    next p heq =>
      exact ih _ e tr h

/-- Every error of the exit loop body arises before the root checks:
the circuit conversion failure or the missing leaf. -/
theorem applyExitTx_error_stage (env : Env) {tree : Tree} {pd : List Nat}
    {tx : CExitTx} {e : PErr} (h : applyExitTx env tree pd tx = .error e) :
    e.afterRootChecks = false := by
  unfold applyExitTx at h
  rcases htf : env.tryFromExit tx with u | ctx
  · simp only [htf, Except.error.injEq] at h
    subst h
    rfl
  · rcases hg : treeGet tree (fieldElementToU32 ctx.fromId) with _ | oldLeaf
    · simp only [htf, hg, Except.error.injEq] at h
      subst h
      rfl
    · simp only [htf, hg] at h
      simp at h

/-- Every error of the exit loop arises before the root checks. -/
theorem runExitTxs_error_stage (env : Env) (txs : List CExitTx) :
    ∀ (tree : Tree) (pd : List Nat) (e : PErr) (tr : Tree) (pd1 : List Nat),
    runExitTxs env tree pd txs = (.error e, tr, pd1) → e.afterRootChecks = false := by
  induction txs with
  | nil =>
    intro tree pd e tr pd1 h
    simp [runExitTxs] at h
  | cons t rest ih =>
    intro tree pd e tr pd1 h
    unfold runExitTxs at h
    split at h
    next e2 heq =>
      have he : e2 = e := by
        have := congrArg Prod.fst h
        simpa using this
      exact he ▸ applyExitTx_error_stage env heq
    next p heq =>
      exact ih _ _ e tr pd1 h

/-- The staged block-number cursor evolution of apply_and_prove_transfer: a
successful call leaves the cursor at st.blockNumber + 1 with the guard
having passed; an error raised at or before the root checks leaves the
cursor unchanged; an error raised after the root checks leaves the cursor
bumped, with the guard having passed. -/
theorem applyAndProveTransfer_stage (env : Env) (st : ProverState) (block : Block)
    (txsT : List CTransferTx) :
    ((applyAndProveTransfer env st block txsT).1.isOk = true →
      (applyAndProveTransfer env st block txsT).2.blockNumber = st.blockNumber + 1 ∧
      block.blockNumber = st.blockNumber) ∧
    (∀ e, (applyAndProveTransfer env st block txsT).1 = .error e →
      (e.afterRootChecks = false →
        (applyAndProveTransfer env st block txsT).2.blockNumber = st.blockNumber) ∧
      (e.afterRootChecks = true →
        (applyAndProveTransfer env st block txsT).2.blockNumber = st.blockNumber + 1 ∧
        block.blockNumber = st.blockNumber)) := by
  unfold applyAndProveTransfer
  repeat' split
  all_goals try simp_all [except_isOk_ok, except_isOk_error, PErr.afterRootChecks]
  all_goals try (repeat' split)
  all_goals try simp_all [except_isOk_ok, except_isOk_error, PErr.afterRootChecks]
  all_goals
    exact absurd (runTransferTxs_error_stage env txsT _ _ _ _ _ (by assumption)) (by decide)

/-- The staged block-number cursor evolution of apply_and_prove_deposit. -/
theorem applyAndProveDeposit_stage (env : Env) (st : ProverState) (block : Block)
    (txsD : List CDepositTx) :
    ((applyAndProveDeposit env st block txsD).1.isOk = true →
      (applyAndProveDeposit env st block txsD).2.blockNumber = st.blockNumber + 1 ∧
      block.blockNumber = st.blockNumber) ∧
    (∀ e, (applyAndProveDeposit env st block txsD).1 = .error e →
      (e.afterRootChecks = false →
        (applyAndProveDeposit env st block txsD).2.blockNumber = st.blockNumber) ∧
      (e.afterRootChecks = true →
        (applyAndProveDeposit env st block txsD).2.blockNumber = st.blockNumber + 1 ∧
        block.blockNumber = st.blockNumber)) := by
  unfold applyAndProveDeposit
  repeat' split
  all_goals try simp_all [except_isOk_ok, except_isOk_error, PErr.afterRootChecks]
  all_goals try (repeat' split)
  all_goals try simp_all [except_isOk_ok, except_isOk_error, PErr.afterRootChecks]
  all_goals
    exact absurd (runDepositTxs_error_stage env txsD _ _ _ (by assumption)) (by decide)

/-- The staged block-number cursor evolution of apply_and_prove_exit. -/
theorem applyAndProveExit_stage (env : Env) (st : ProverState) (block : Block)
    (txsE : List CExitTx) :
    ((applyAndProveExit env st block txsE).1.isOk = true →
      (applyAndProveExit env st block txsE).2.blockNumber = st.blockNumber + 1 ∧
      block.blockNumber = st.blockNumber) ∧
    (∀ e, (applyAndProveExit env st block txsE).1 = .error e →
      (e.afterRootChecks = false →
        (applyAndProveExit env st block txsE).2.blockNumber = st.blockNumber) ∧
      (e.afterRootChecks = true →
        (applyAndProveExit env st block txsE).2.blockNumber = st.blockNumber + 1 ∧
        block.blockNumber = st.blockNumber)) := by
  unfold applyAndProveExit
  repeat' split
  all_goals try simp_all [except_isOk_ok, except_isOk_error, PErr.afterRootChecks]
  all_goals try (repeat' split)
  all_goals try simp_all [except_isOk_ok, except_isOk_error, PErr.afterRootChecks]
  all_goals
    exact absurd (runExitTxs_error_stage env txsE _ _ _ _ _ (by assumption)) (by decide)

/-- Claim C5 (amended): for each of the three block kinds, a call returning
Ok on block B leaves self.block_number equal to B.block_number + 1; every
call failing at or before the post-state root checks (sequence guard, batch
size, transaction loop, either root comparison) returns with block_number
unchanged; and every call failing after the root checks (commitment field
packing, Groth16 proof creation, local verification) returns with
block_number already equal to B.block_number + 1, the guard having passed.
The stage of a failure is read off its error value by PErr.afterRootChecks,
which names exactly the post-root-check failure sites of the source. -/
theorem block_number_increment (env : Env) (st : ProverState) (block : Block)
    (txsT : List CTransferTx) (txsD : List CDepositTx) (txsE : List CExitTx) :
    ((applyAndProveTransfer env st block txsT).1.isOk = true →
      (applyAndProveTransfer env st block txsT).2.blockNumber = block.blockNumber + 1) ∧
    (∀ e, (applyAndProveTransfer env st block txsT).1 = .error e →
      (e.afterRootChecks = false →
        (applyAndProveTransfer env st block txsT).2.blockNumber = st.blockNumber) ∧
      (e.afterRootChecks = true →
        (applyAndProveTransfer env st block txsT).2.blockNumber = block.blockNumber + 1 ∧
        block.blockNumber = st.blockNumber)) ∧
    ((applyAndProveDeposit env st block txsD).1.isOk = true →
      (applyAndProveDeposit env st block txsD).2.blockNumber = block.blockNumber + 1) ∧
    (∀ e, (applyAndProveDeposit env st block txsD).1 = .error e →
      (e.afterRootChecks = false →
        (applyAndProveDeposit env st block txsD).2.blockNumber = st.blockNumber) ∧
      (e.afterRootChecks = true →
        (applyAndProveDeposit env st block txsD).2.blockNumber = block.blockNumber + 1 ∧
        block.blockNumber = st.blockNumber)) ∧
    ((applyAndProveExit env st block txsE).1.isOk = true →
      (applyAndProveExit env st block txsE).2.blockNumber = block.blockNumber + 1) ∧
    (∀ e, (applyAndProveExit env st block txsE).1 = .error e →
      (e.afterRootChecks = false →
        (applyAndProveExit env st block txsE).2.blockNumber = st.blockNumber) ∧
      (e.afterRootChecks = true →
        (applyAndProveExit env st block txsE).2.blockNumber = block.blockNumber + 1 ∧
        block.blockNumber = st.blockNumber)) := by
  refine ⟨?_, ?_, ?_, ?_, ?_, ?_⟩
  · intro h
    obtain ⟨hb, he⟩ := (applyAndProveTransfer_stage env st block txsT).1 h
    rw [hb, he]
  · intro e he
    obtain ⟨h1, h2⟩ := (applyAndProveTransfer_stage env st block txsT).2 e he
    refine ⟨h1, fun ha => ?_⟩
    obtain ⟨hb, hg⟩ := h2 ha
    exact ⟨by rw [hb, hg], hg⟩
  · intro h
    obtain ⟨hb, he⟩ := (applyAndProveDeposit_stage env st block txsD).1 h
    rw [hb, he]
  · intro e he
    obtain ⟨h1, h2⟩ := (applyAndProveDeposit_stage env st block txsD).2 e he
    refine ⟨h1, fun ha => ?_⟩
    obtain ⟨hb, hg⟩ := h2 ha
    exact ⟨by rw [hb, hg], hg⟩
  · intro h
    obtain ⟨hb, he⟩ := (applyAndProveExit_stage env st block txsE).1 h
    rw [hb, he]
  · intro e he
    obtain ⟨h1, h2⟩ := (applyAndProveExit_stage env st block txsE).2 e he
    refine ⟨h1, fun ha => ?_⟩
    obtain ⟨hb, hg⟩ := h2 ha
    exact ⟨by rw [hb, hg], hg⟩

/-- Claim C5, counterexample: with a failing Groth16 prover the concrete
transfer block errors, yet the cursor has already been bumped; the claim
that an erroring call leaves block_number unchanged is false. -/
theorem groth_failure_after_increment_cex :
    (applyAndProveTransfer envGrothFail stW blockW [txW]).1 = .error .otherProofErr ∧
    (applyAndProveTransfer envGrothFail stW blockW [txW]).2.blockNumber =
      stW.blockNumber + 1 ∧
    stW.blockNumber + 1 ≠ stW.blockNumber := by
  refine ⟨by decide, by decide, by decide⟩

/-- Claim C5, witness: the staged increment behavior applied to a successful
concrete run, to a concrete sequence-guard failure, and to a concrete
Groth16 proof-creation failure. -/
theorem block_number_increment_w :
    (applyAndProveTransfer envBase stW blockW [txW]).2.blockNumber =
      blockW.blockNumber + 1 ∧
    (applyAndProveTransfer envBase stW blockBad [txW]).2.blockNumber = stW.blockNumber ∧
    ((applyAndProveTransfer envGrothFail stW blockW [txW]).2.blockNumber =
        blockW.blockNumber + 1 ∧
      blockW.blockNumber = stW.blockNumber) :=
  ⟨(block_number_increment envBase stW blockW [txW] [] []).1 (by decide),
    ((block_number_increment envBase stW blockBad [txW] [] []).2.1 .otherIncorrectBlock
      (by decide)).1 (by decide),
    ((block_number_increment envGrothFail stW blockW [txW] [] []).2.1 .otherProofErr
      (by decide)).2 (by decide)⟩

/-- Claim C8 (amended): for each transfer transaction with an existing
sender, the loop body succeeds, accumulates the parsed fee, and, when sender
and recipient leaf numbers differ, debits the sender by amount plus fee and
bumps its nonce while crediting the recipient exactly when its leaf number
is nonzero; when sender and recipient coincide the recipient write
overwrites the sender update, so the surviving leaf is only credited (or
left unchanged for leaf 0) and the debit and nonce bump are lost. -/
theorem transfer_tx_balance_update (env : Env) (tree : Tree) (fees : Nat)
    (tx ctx : CTransferTx) (sender : CAccount)
    (hconv : env.tryFromTransfer tx = .ok ctx)
    (hs : treeGet tree (fieldElementToU32 ctx.fromId) = some sender) :
    ∃ tree2,
      applyTransferTx env tree fees tx =
        .ok (tree2, frAdd fees (parsedTransferFee ctx.fee)) ∧
      (fieldElementToU32 ctx.fromId ≠ fieldElementToU32 ctx.toId →
        treeGet tree2 (fieldElementToU32 ctx.fromId) =
          some { sender with
                 balance := frSub (frSub sender.balance (parsedTransferAmount ctx.amount))
                   (parsedTransferFee ctx.fee)
                 nonce := frAdd sender.nonce 1 } ∧
        treeGet tree2 (fieldElementToU32 ctx.toId) =
          some (if fieldElementToU32 ctx.toId ≠ 0 then
                  { (treeGet tree (fieldElementToU32 ctx.toId)).getD CAccount.empty with
                    balance := frAdd
                      ((treeGet tree (fieldElementToU32 ctx.toId)).getD CAccount.empty).balance
                      (parsedTransferAmount ctx.amount) }
                else (treeGet tree (fieldElementToU32 ctx.toId)).getD CAccount.empty)) ∧
      (fieldElementToU32 ctx.fromId = fieldElementToU32 ctx.toId →
        treeGet tree2 (fieldElementToU32 ctx.fromId) =
          some (if fieldElementToU32 ctx.toId ≠ 0 then
                  { sender with
                    balance := frAdd sender.balance (parsedTransferAmount ctx.amount) }
                else sender)) := by
  unfold applyTransferTx
  rw [hconv]
  simp only [hs]
  refine ⟨_, rfl, ?_, ?_⟩
  · intro hneq
    constructor
    · rw [treeGet_insert_other _ _ _ _ (fun he => hneq he.symm), treeGet_insert_self]
    · rw [treeGet_insert_self]
  · intro heq
    rw [heq, treeGet_insert_self, ← heq, hs]
    simp

/-- Claim C8, counterexample: a self-transfer (sender leaf equals recipient
leaf) of amount 7 from a leaf with balance 100 leaves the leaf with balance
107 and nonce 0: the sender debit and nonce bump the claim promises for
every transaction are lost. -/
theorem self_transfer_overwrites_debit_cex :
    applyTransferTx envBase [(1, accW)] 0 txSelfW =
      .ok ([(1, { balance := 107, nonce := 0, pubX := 0, pubY := 0 })], 0) ∧
    ({ balance := 107, nonce := 0, pubX := 0, pubY := 0 } : CAccount) ≠
      { accW with
        balance := frSub (frSub accW.balance (parsedTransferAmount txSelfW.amount))
          (parsedTransferFee txSelfW.fee)
        nonce := frAdd accW.nonce 1 } := by
  refine ⟨by decide, by decide⟩

/-- Claim C8, witness: the per-transaction update applied to the concrete
transfer of 7 from leaf 1 to the absent leaf 2. -/
theorem transfer_tx_balance_update_w :
    ∃ tree2,
      applyTransferTx envBase [(1, accW)] 0 txW =
        .ok (tree2, frAdd 0 (parsedTransferFee txW.fee)) ∧
      (fieldElementToU32 txW.fromId ≠ fieldElementToU32 txW.toId →
        treeGet tree2 (fieldElementToU32 txW.fromId) =
          some { accW with
                 balance := frSub (frSub accW.balance (parsedTransferAmount txW.amount))
                   (parsedTransferFee txW.fee)
                 nonce := frAdd accW.nonce 1 } ∧
        treeGet tree2 (fieldElementToU32 txW.toId) =
          some (if fieldElementToU32 txW.toId ≠ 0 then
                  { (treeGet [(1, accW)] (fieldElementToU32 txW.toId)).getD CAccount.empty with
                    balance := frAdd
                      ((treeGet [(1, accW)] (fieldElementToU32 txW.toId)).getD
                        CAccount.empty).balance
                      (parsedTransferAmount txW.amount) }
                else (treeGet [(1, accW)] (fieldElementToU32 txW.toId)).getD CAccount.empty)) ∧
      (fieldElementToU32 txW.fromId = fieldElementToU32 txW.toId →
        treeGet tree2 (fieldElementToU32 txW.fromId) =
          some (if fieldElementToU32 txW.toId ≠ 0 then
                  { accW with
                    balance := frAdd accW.balance (parsedTransferAmount txW.amount) }
                else accW)) :=
  transfer_tx_balance_update envBase [(1, accW)] 0 txW txW accW rfl (by decide)

end Zk
